import Mathlib

/-!
# The quorum invoker (`microservices/invoker/src/invoker.go`)

A shallow embedding of the invoker: the statistics record, the per-message
fan-out of `handleMessage` / `handleMessageUnderThreshold`, the two intake
loops of `runInvoker`, `shutDown` and `outputStats`.

Conventions of the embedding.

* Effects are recorded as a list of `Event`s in program order.  A goroutine
  started with `go` is run at the point where it is started; the events of the
  statement that starts it come first.
* `int32` counters are integers wrapped with `wrap32`.  Go `int` values
  (`msgID`, the loop index, `conf.F`) are plain integers.
* Handlers are run one at a time.  What two overlapping handlers can do to
  `invokeCnt` is described apart, by `IncOp` and `runOps`.
* `json.Unmarshal` and the outcome of `lambdaClient.Invoke` belong to
  libraries; they are parameters (`unmarshal`, `fails`).  A payload is the
  object handed to `json.Marshal`.
* `iSock.sock.Recv()` returning an error (the receive deadline) goes round the
  loop without any effect, so a run is driven by the list of messages that were
  received successfully, each with the clock reading at its receipt.
-/

namespace Invoker

/-! ## JSON objects -/

/-- The values `json.Unmarshal` stores in a `map[string]interface{}`, and the
Go string stored under `"uuid"`. -/
inductive JVal where
  | null
  | bool (b : Bool)
  | num (v : ℚ)
  | str (s : String)
  | arr (xs : List JVal)
  | obj (kvs : List (String × JVal))

/-- A `map[string]interface{}` as a list of bindings; the first binding of a
key is the one the map holds. -/
abbrev JObj := List (String × JVal)

/-- Map lookup `m[k]`. -/
def JObj.get : JObj → String → Option JVal
  | [], _ => none
  | (k', v') :: rest, k => if k' = k then some v' else JObj.get rest k

/-- Map assignment `m[k] = v`: an existing binding is overwritten, a new key is
added. -/
def JObj.set : JObj → String → JVal → JObj
  | [], k, v => [(k, v)]
  | (k', v') :: rest, k, v =>
    if k' = k then (k, v) :: rest else (k', v') :: JObj.set rest k v

/-! ## Data model -/

/-- Go `int32` arithmetic: the result of an operation, wrapped into
`[-2^31, 2^31)`. -/
def wrap32 (x : Int) : Int := (x + 2147483648) % 4294967296 - 2147483648

/-- The `stats` struct.  `startTime = none` is the zero `time.Time`; a set
start time is a clock reading in nanoseconds. -/
structure Stats where
  invokeCnt : Int
  recvd : Int
  startTime : Option Nat
  deriving DecidableEq, Repr

/-- Value of `var sts = stats{invokeCnt: 0, recvd: 0}`. -/
def sts0 : Stats := { invokeCnt := 0, recvd := 0, startTime := none }

/-- Modelled from the spec: the type `config.InvokerConfig`, whose declaration
is in the package `invoker/config`, not among the sources.  The fields are
those the spec lists (`F`, `Uuids`, `FcnName`, `ThresholdOn`, `Threshold`);
`F` is a Go `int` and `Threshold` a `uint64`, as their uses in `invoker.go`
require. -/
structure InvokerConfig where
  F : Int
  Uuids : List String
  FcnName : String
  ThresholdOn : Bool
  Threshold : Nat

/-- The `serverlessClient` struct; the session and the Lambda client are
determined by the region it was created for. -/
structure ServerlessClient where
  region : String
  deriving DecidableEq, Repr

/-- The fields of `lambda.InvokeInput` that `handleMessage` fills in. -/
structure InvokeInput where
  FunctionName : String
  InvocationType : String
  Payload : JObj

/-- What the program does, in program order. -/
inductive Event where
  /-- The assignment `sts.startTime = time.Now()`. -/
  | startTimeSet (t : Nat)
  /-- The increment `sts.recvd++`. -/
  | recvdInc
  /-- The statement `go handleMessage(servClients[slot], conf, msg, msgID)`, or
  the same with `handleMessageUnderThreshold`. -/
  | dispatched (slot : Nat) (msg : String) (msgID : Int)
  /-- The statement `sts.invokeCnt = atomic.AddInt32(&sts.invokeCnt, int32(1))`. -/
  | invokeCntInc
  /-- The statement `go servClient.invoke(&invokeInput, &wg, msgID)`. -/
  | submitted (c : ServerlessClient) (i : InvokeInput) (num : Int)
  /-- The `log.Printf` of `invoke` when `lambdaClient.Invoke` returns an error. -/
  | submitFailed (num : Int)
  /-- The `fmt.Printf` of `shutDown`. -/
  | shutDownNotice (msg : String)
  /-- A call of `sts.outputStats()`, with the value of `sts` at the call. -/
  | statsOut (s : Stats)
  /-- The call `os.Exit(code)`. -/
  | exit (code : Nat)

/-- How a handler can end the process: `die` (exit status 1) or a run-time
panic (index out of range, integer division by zero). -/
inductive Abort where
  | die
  | panic
  deriving DecidableEq, Repr

/-- Result of running a message handler: the statistics afterwards, the
events it produced, and whether it ended the process. -/
structure Outcome where
  sts : Stats
  trace : List Event
  abort : Option Abort

/-! ## `handleMessage` -/

/-- The loop `for i := 0; i < (2*conf.F + 1); i++ { ... }` of `handleMessage`,
with `n` iterations left, loop index `i`, and the current contents of the map
`msgJSON`. -/
def fanOut (servClient : ServerlessClient) (conf : InvokerConfig)
    (fails : Int → Nat → Bool) (msgID : Int) :
    Nat → Nat → JObj → Stats → Outcome
  | 0, _, _, sts => { sts := sts, trace := [], abort := none }
  | n + 1, i, msgJSON, sts =>
    match conf.Uuids[i]? with
    | none => { sts := sts, trace := [], abort := some .panic }
    | some u =>
      let msgJSON1 := msgJSON.set "uuid" (.str u)
      let invokeInput : InvokeInput :=
        { FunctionName := conf.FcnName, InvocationType := "Event", Payload := msgJSON1 }
      let sts1 : Stats := { sts with invokeCnt := wrap32 (sts.invokeCnt + 1) }
      let rest := fanOut servClient conf fails msgID n (i + 1) msgJSON1 sts1
      { sts := rest.sts
        trace := Event.invokeCntInc :: Event.submitted servClient invokeInput msgID ::
          ((if fails msgID i then [Event.submitFailed msgID] else []) ++ rest.trace)
        abort := rest.abort }

/-- The function `handleMessage`. -/
def handleMessage (unmarshal : String → Option JObj) (fails : Int → Nat → Bool)
    (servClient : ServerlessClient) (conf : InvokerConfig) (msg : String) (msgID : Int)
    (sts : Stats) : Outcome :=
  match unmarshal msg with
  | none => { sts := sts, trace := [Event.exit 1], abort := some .die }
  | some msgJSON => fanOut servClient conf fails msgID (2 * conf.F + 1).toNat 0 msgJSON sts

/-- The function `handleMessageUnderThreshold`: the body of `handleMessage`,
with `msgWg.Done()` deferred. -/
def handleMessageUnderThreshold (unmarshal : String → Option JObj)
    (fails : Int → Nat → Bool) (servClient : ServerlessClient) (conf : InvokerConfig)
    (msg : String) (msgID : Int) (sts : Stats) : Outcome :=
  match unmarshal msg with
  | none => { sts := sts, trace := [Event.exit 1], abort := some .die }
  | some msgJSON => fanOut servClient conf fails msgID (2 * conf.F + 1).toNat 0 msgJSON sts

/-- The payloads of the submissions in a trace, in order. -/
def payloads : List Event → List JObj
  | [] => []
  | Event.submitted _ i _ :: rest => i.Payload :: payloads rest
  | _ :: rest => payloads rest

/-- Number of `invokeCnt` increments in a trace. -/
def countIncs : List Event → Nat
  | [] => 0
  | Event.invokeCntInc :: rest => countIncs rest + 1
  | _ :: rest => countIncs rest

/-- Number of submissions in a trace. -/
def countSubmitted : List Event → Nat
  | [] => 0
  | Event.submitted _ _ _ :: rest => countSubmitted rest + 1
  | _ :: rest => countSubmitted rest

/-- Number of dispatched messages in a trace. -/
def countDispatched : List Event → Nat
  | [] => 0
  | Event.dispatched _ _ _ :: rest => countDispatched rest + 1
  | _ :: rest => countDispatched rest

/-- Number of statistics reports in a trace. -/
def countStatsOut : List Event → Nat
  | [] => 0
  | Event.statsOut _ :: rest => countStatsOut rest + 1
  | _ :: rest => countStatsOut rest

/-- The messages handed to a handler in a trace, in order. -/
def dispatchedMsgs : List Event → List String
  | [] => []
  | Event.dispatched _ msg _ :: rest => msg :: dispatchedMsgs rest
  | _ :: rest => dispatchedMsgs rest

/-- The client slots `servClients[slot]` used by the dispatches in a trace, in
order. -/
def dispatchedSlots : List Event → List Nat
  | [] => []
  | Event.dispatched slot _ _ :: rest => slot :: dispatchedSlots rest
  | _ :: rest => dispatchedSlots rest

/-! ## `runInvoker` -/

/-- Where the process is: in the intake loop, returned from `runInvoker` (and
so from `main`), ended by `os.Exit`, or ended by a run-time panic. -/
inductive Status where
  | running
  | returned
  | exited (code : Nat)
  | panicked
  deriving DecidableEq, Repr

/-- A message returned by `iSock.sock.Recv()` without error, and the reading of
the clock when it was received. -/
structure Arrival where
  msg : String
  now : Nat

/-- The variables of `runInvoker` (`msgID`, `cnt`), the global `sts`, the
events so far and the status of the process. -/
structure RunState where
  sts : Stats
  msgID : Int
  cnt : Nat
  trace : List Event
  status : Status

/-- State on entry to the intake loop. -/
def initState : RunState :=
  { sts := sts0, msgID := 0, cnt := 0, trace := [], status := .running }

/-- Status of the process after a handler has run. -/
def statusAfter : Option Abort → Status
  | none => .running
  | some .die => .exited 1
  | some .panic => .panicked

/-- The function `shutDown`: notice, `sts.outputStats()`, `os.Exit(0)`. -/
def shutDown (rs : RunState) (msg : String) : RunState :=
  { rs with
    trace := rs.trace ++ [Event.shutDownNotice msg, Event.statsOut rs.sts, Event.exit 0]
    status := .exited 0 }

/-- The statement `if msgID == 0 { sts.startTime = time.Now() }`. -/
def anchor (msgID : Int) (sts : Stats) (now : Nat) : Stats × List Event :=
  if msgID = 0 then ({ sts with startTime := some now }, [Event.startTimeSet now])
  else (sts, [])

/-- One pass of the loop of `runInvoker` under `conf.ThresholdOn`, for a
received message. -/
def thresholdStep (unmarshal : String → Option JObj) (fails : Int → Nat → Bool)
    (servClients : List ServerlessClient) (conf : InvokerConfig)
    (rs : RunState) (a : Arrival) : RunState :=
  if a.msg = "END" then shutDown rs a.msg
  else
    let anchored := anchor rs.msgID rs.sts a.now
    let msgID1 := rs.msgID + 1
    let sts1 : Stats := { anchored.1 with recvd := wrap32 (anchored.1.recvd + 1) }
    if rs.cnt < conf.Threshold then
      match servClients[0]? with
      | none =>
        { sts := sts1, msgID := msgID1, cnt := rs.cnt
          trace := rs.trace ++ anchored.2 ++ [Event.recvdInc], status := .panicked }
      | some c =>
        let o := handleMessageUnderThreshold unmarshal fails c conf a.msg msgID1 sts1
        { sts := o.sts, msgID := msgID1, cnt := rs.cnt + 1
          trace := rs.trace ++ anchored.2 ++
            [Event.recvdInc, Event.dispatched 0 a.msg msgID1] ++ o.trace
          status := statusAfter o.abort }
    else
      -- `break`, then `msgWg.Wait()`, `sts.outputStats()` and the return to `main`
      { sts := sts1, msgID := msgID1, cnt := rs.cnt
        trace := rs.trace ++ anchored.2 ++ [Event.recvdInc, Event.statsOut sts1]
        status := .returned }

/-- The expression `servClients[msgID%numServClients]`: the slot it selects,
or `none` when it panics (division by zero, index out of range). -/
def clientSlot (msgID : Int) (numServClients : Nat) : Option Nat :=
  if numServClients = 0 then none
  else
    let idx := Int.tmod msgID numServClients
    if 0 ≤ idx ∧ idx < numServClients then some idx.toNat else none

/-- One pass of the loop of `runInvoker` without thresholding, for a received
message. -/
def unboundedStep (unmarshal : String → Option JObj) (fails : Int → Nat → Bool)
    (servClients : List ServerlessClient) (conf : InvokerConfig)
    (rs : RunState) (a : Arrival) : RunState :=
  if a.msg = "END" then shutDown rs a.msg
  else
    let anchored := anchor rs.msgID rs.sts a.now
    let sts1 : Stats := { anchored.1 with recvd := wrap32 (anchored.1.recvd + 1) }
    let numServClients := servClients.length
    match (clientSlot rs.msgID numServClients).bind (fun slot =>
        (servClients[slot]?).map (fun c => (slot, c))) with
    | none =>
      { sts := sts1, msgID := rs.msgID, cnt := rs.cnt
        trace := rs.trace ++ anchored.2 ++ [Event.recvdInc], status := .panicked }
    | some (slot, c) =>
      let o := handleMessage unmarshal fails c conf a.msg rs.msgID sts1
      { sts := o.sts, msgID := rs.msgID + 1, cnt := rs.cnt
        trace := rs.trace ++ anchored.2 ++
          [Event.recvdInc, Event.dispatched slot a.msg rs.msgID] ++ o.trace
        status := statusAfter o.abort }

/-- The loop `for { if msg, err = iSock.sock.Recv(); err == nil { ... } }`: the
passes for the received messages, as long as the process is in the loop. -/
def intake (step : RunState → Arrival → RunState) : RunState → List Arrival → RunState
  | rs, [] => rs
  | rs, a :: rest =>
    match rs.status with
    | .running => intake step (step rs a) rest
    | _ => rs

/-- The function `runInvoker`, for the messages received. -/
def runInvoker (unmarshal : String → Option JObj) (fails : Int → Nat → Bool)
    (servClients : List ServerlessClient) (conf : InvokerConfig)
    (arrivals : List Arrival) : RunState :=
  if conf.ThresholdOn then
    intake (thresholdStep unmarshal fails servClients conf) initState arrivals
  else
    intake (unboundedStep unmarshal fails servClients conf) initState arrivals

/-! ## `outputStats` -/

/-- Largest `time.Duration`, in nanoseconds. -/
def maxDuration : Int := 9223372036854775807

/-- The duration `time.Since(s.startTime)` in nanoseconds at clock reading `now`.  For the
zero `time.Time` the subtraction saturates at the largest duration. -/
def since (startTime : Option Nat) (now : Nat) : Int :=
  match startTime with
  | none => maxDuration
  | some t => min maxDuration (max (-maxDuration - 1) ((now : Int) - (t : Int)))

/-- A `float64` quotient: not-a-number, an infinity, or a finite value.  A
finite value is given by the exact quotient; its rounding to a `float64` is not
represented. -/
inductive F64 where
  | nan
  | posInf
  | negInf
  | finite (q : ℚ)
  deriving DecidableEq

/-- The `float64` division `x / y` of two finite numbers. -/
def fdiv (x y : ℚ) : F64 :=
  if y = 0 then
    if x = 0 then .nan else if 0 < x then .posInf else .negInf
  else .finite (x / y)

/-- The four lines `outputStats` logs. -/
structure StatsReport where
  invokeCnt : Int
  recvd : Int
  elapsed : ℚ
  thpt : F64
  deriving DecidableEq

/-- The method `outputStats`, called at clock reading `now`. -/
def outputStats (s : Stats) (now : Nat) : StatsReport :=
  let elapsed : ℚ := (since s.startTime now : ℚ) / 1000000000
  let thpt := fdiv (s.invokeCnt : ℚ) elapsed
  { invokeCnt := s.invokeCnt, recvd := s.recvd, elapsed := elapsed, thpt := thpt }

/-! ## Descriptions used in the statements -/

/-- Events of the replica loop written out: for the identifiers `us`, the first
of them at index `i`, an increment and the submission of the message object
with `"uuid"` set to the identifier. -/
def replicaTrace (servClient : ServerlessClient) (conf : InvokerConfig)
    (fails : Int → Nat → Bool) (msgID : Int) (m : JObj) : Nat → List String → List Event
  | _, [] => []
  | i, u :: us =>
    Event.invokeCntInc ::
    Event.submitted servClient
      { FunctionName := conf.FcnName, InvocationType := "Event",
        Payload := m.set "uuid" (.str u) } msgID ::
    ((if fails msgID i then [Event.submitFailed msgID] else []) ++
      replicaTrace servClient conf fails msgID m (i + 1) us)


/-- The message `{"x":1}`. -/
def exampleMsg : String := "\x7b\"x\":1\x7d"

/-- A decoder for worked examples: it decodes `exampleMsg` to the object with
the single binding `"x"` to `1`, and rejects everything else. -/
def exampleUnmarshal : String → Option JObj :=
  fun s => if s = exampleMsg then some [("x", JVal.num 1)] else none

/-- An example configuration with `F = 1`. -/
def exampleConf : InvokerConfig :=
  { F := 1, Uuids := ["a", "b", "c"], FcnName := "fcn", ThresholdOn := false, Threshold := 0 }

/-- An example configuration with `F = 0` and `Threshold = 2`. -/
def thresholdConf : InvokerConfig :=
  { F := 0, Uuids := ["a"], FcnName := "fcn", ThresholdOn := true, Threshold := 2 }

/-- The client `main` creates. -/
def clientWest : ServerlessClient := { region := "us-west-1" }

/-- No submission fails. -/
def noFailure : Int → Nat → Bool := fun _ _ => false

/-- The handler `handleMessage` run for the messages of a list one after the
other, each call finishing before the next starts, the first with the given
`msgID`; the statistics afterwards.  A call that ends the process ends the
sequence. -/
def handleEach (unmarshal : String → Option JObj) (fails : Int → Nat → Bool)
    (servClient : ServerlessClient) (conf : InvokerConfig) :
    List String → Int → Stats → Stats
  | [], _, sts => sts
  | msg :: rest, msgID, sts =>
    match (handleMessage unmarshal fails servClient conf msg msgID sts).abort with
    | none =>
      handleEach unmarshal fails servClient conf rest (msgID + 1)
        (handleMessage unmarshal fails servClient conf msg msgID sts).sts
    | some _ => (handleMessage unmarshal fails servClient conf msg msgID sts).sts

/-- The received messages are requests: none is the sentinel `"END"` and each
one decodes to an object. -/
def wellFormed (unmarshal : String → Option JObj) (arrivals : List Arrival) : Prop :=
  ∀ a ∈ arrivals, a.msg ≠ "END" ∧ (unmarshal a.msg).isSome = true

/-- An example configuration with `F = 1` and `Threshold = 2`. -/
def thresholdConf1 : InvokerConfig :=
  { F := 1, Uuids := ["a", "b", "c"], FcnName := "fcn", ThresholdOn := true, Threshold := 2 }

/-- Five copies of `exampleMsg`, received at clock readings 1 to 5. -/
def fiveArrivals : List Arrival :=
  [⟨exampleMsg, 1⟩, ⟨exampleMsg, 2⟩, ⟨exampleMsg, 3⟩, ⟨exampleMsg, 4⟩, ⟨exampleMsg, 5⟩]

/-- A second client, for examples with more than one region. -/
def clientEast : ServerlessClient := { region := "us-east-1" }

/-- An example configuration with `F = 0`, without thresholding. -/
def unboundedConf : InvokerConfig :=
  { F := 0, Uuids := ["a"], FcnName := "fcn", ThresholdOn := false, Threshold := 0 }

/-- For each submission of a trace, in order, the number of events satisfying
`p` that come before it, given that `seen` of them came before the trace. -/
def seenBefore (p : Event → Bool) : Nat → List Event → List Nat
  | _, [] => []
  | seen, Event.submitted _ _ _ :: rest => seen :: seenBefore p seen rest
  | seen, e :: rest => seenBefore p (if p e then seen + 1 else seen) rest

/-- The event is an increment of `invokeCnt`. -/
def isInvokeCntInc : Event → Bool
  | Event.invokeCntInc => true
  | _ => false

/-- The event is the increment of `recvd`. -/
def isRecvdInc : Event → Bool
  | Event.recvdInc => true
  | _ => false

/-- The event is the setting of `startTime`. -/
def isStartTimeSet : Event → Bool
  | Event.startTimeSet _ => true
  | _ => false

/-! ## The increment statement between goroutines -/

/-- The statement `sts.invokeCnt = atomic.AddInt32(&sts.invokeCnt, int32(1))`
as the two memory operations another goroutine can come between: the atomic
addition, whose result goroutine `g` keeps, and the plain store of the kept
result into `sts.invokeCnt`. -/
inductive IncOp where
  | add (g : Nat)
  | store (g : Nat)

/-- The counter `sts.invokeCnt`, and for each goroutine the result of its last
`atomic.AddInt32`. -/
structure Shared where
  invokeCnt : Int
  kept : Nat → Int

/-- Effect of one memory operation of the increment statement. -/
def incOp (s : Shared) : IncOp → Shared
  | IncOp.add g =>
    { invokeCnt := wrap32 (s.invokeCnt + 1)
      kept := fun h => if h = g then wrap32 (s.invokeCnt + 1) else s.kept h }
  | IncOp.store g => { s with invokeCnt := s.kept g }

/-- Effect of a schedule of memory operations. -/
def runOps (s : Shared) (ops : List IncOp) : Shared := ops.foldl incOp s

/-! ## Maps and counters -/

theorem JObj.get_set_self (m : JObj) (k : String) (v : JVal) :
    (JObj.set m k v).get k = some v := by
  induction m with
  | nil => simp [JObj.set, JObj.get]
  | cons p rest ih =>
    obtain ⟨k', v'⟩ := p
    by_cases h : k' = k
    · simp [JObj.set, JObj.get, h]
    · simp [JObj.set, JObj.get, h, ih]

theorem JObj.get_set_ne (m : JObj) (k k' : String) (v : JVal) (hk : k' ≠ k) :
    (JObj.set m k v).get k' = m.get k' := by
  induction m with
  | nil => simp [JObj.set, JObj.get, Ne.symm hk]
  | cons p rest ih =>
    obtain ⟨k0, v0⟩ := p
    by_cases h : k0 = k
    · subst h
      simp [JObj.set, JObj.get, Ne.symm hk]
    · by_cases h2 : k0 = k'
      · subst h2
        simp [JObj.set, JObj.get, h]
      · simp [JObj.set, JObj.get, h, h2, ih]

theorem JObj.set_set (m : JObj) (k : String) (v w : JVal) :
    JObj.set (JObj.set m k v) k w = JObj.set m k w := by
  induction m with
  | nil => simp [JObj.set]
  | cons p rest ih =>
    obtain ⟨k0, v0⟩ := p
    by_cases h : k0 = k
    · simp [JObj.set, h]
    · simp [JObj.set, h, ih]

theorem wrap32_wrap32_add (x y : Int) : wrap32 (wrap32 x + y) = wrap32 (x + y) := by
  unfold wrap32
  omega

theorem wrap32_of_range (x : Int) (h1 : -2147483648 ≤ x) (h2 : x ≤ 2147483647) :
    wrap32 x = x := by
  unfold wrap32
  omega

theorem replicaTrace_set (servClient : ServerlessClient) (conf : InvokerConfig)
    (fails : Int → Nat → Bool) (msgID : Int) (m : JObj) (v : JVal) (us : List String) :
    ∀ i, replicaTrace servClient conf fails msgID (m.set "uuid" v) i us =
      replicaTrace servClient conf fails msgID m i us := by
  induction us with
  | nil => intro i; rfl
  | cons u us ih => intro i; simp [replicaTrace, JObj.set_set, ih]

theorem fanOut_trace (servClient : ServerlessClient) (conf : InvokerConfig)
    (fails : Int → Nat → Bool) (msgID : Int) :
    ∀ (n i : Nat) (m : JObj) (sts : Stats), i + n ≤ conf.Uuids.length →
      (fanOut servClient conf fails msgID n i m sts).trace =
        replicaTrace servClient conf fails msgID m i ((conf.Uuids.drop i).take n) := by
  intro n
  induction n with
  | zero => intro i m sts _; simp [fanOut, replicaTrace]
  | succ n ih =>
    intro i m sts h
    have hi : i < conf.Uuids.length := by omega
    have hd : conf.Uuids.drop i = conf.Uuids[i] :: conf.Uuids.drop (i + 1) :=
      List.drop_eq_getElem_cons hi
    simp only [fanOut, List.getElem?_eq_getElem hi, hd, List.take_succ_cons, replicaTrace]
    rw [ih (i + 1) _ _ (by omega), replicaTrace_set]

theorem fanOut_abort (servClient : ServerlessClient) (conf : InvokerConfig)
    (fails : Int → Nat → Bool) (msgID : Int) :
    ∀ (n i : Nat) (m : JObj) (sts : Stats), i + n ≤ conf.Uuids.length →
      (fanOut servClient conf fails msgID n i m sts).abort = none := by
  intro n
  induction n with
  | zero => intro i m sts _; simp [fanOut]
  | succ n ih =>
    intro i m sts h
    have hi : i < conf.Uuids.length := by omega
    simp only [fanOut, List.getElem?_eq_getElem hi]
    exact ih (i + 1) _ _ (by omega)

theorem fanOut_invokeCnt (servClient : ServerlessClient) (conf : InvokerConfig)
    (fails : Int → Nat → Bool) (msgID : Int) :
    ∀ (n i : Nat) (m : JObj) (sts : Stats), i + n ≤ conf.Uuids.length →
      (fanOut servClient conf fails msgID n i m sts).sts.invokeCnt =
        if n = 0 then sts.invokeCnt else wrap32 (sts.invokeCnt + n) := by
  intro n
  induction n with
  | zero => intro i m sts _; simp [fanOut]
  | succ n ih =>
    intro i m sts h
    have hi : i < conf.Uuids.length := by omega
    simp only [fanOut, List.getElem?_eq_getElem hi]
    rw [ih (i + 1) _ _ (by omega)]
    by_cases hn : n = 0
    · subst hn; simp
    · simp only [hn, if_false, Nat.succ_ne_zero, wrap32_wrap32_add]
      congr 1
      push_cast
      ring

theorem fanOut_rest (servClient : ServerlessClient) (conf : InvokerConfig)
    (fails : Int → Nat → Bool) (msgID : Int) :
    ∀ (n i : Nat) (m : JObj) (sts : Stats),
      (fanOut servClient conf fails msgID n i m sts).sts.recvd = sts.recvd ∧
      (fanOut servClient conf fails msgID n i m sts).sts.startTime = sts.startTime := by
  intro n
  induction n with
  | zero => intro i m sts; simp [fanOut]
  | succ n ih =>
    intro i m sts
    simp only [fanOut]
    cases hu : conf.Uuids[i]? with
    | none => simp
    | some u => simpa using ih (i + 1) _ _

theorem payloads_replicaTrace (servClient : ServerlessClient) (conf : InvokerConfig)
    (fails : Int → Nat → Bool) (msgID : Int) (m : JObj) (us : List String) :
    ∀ i, payloads (replicaTrace servClient conf fails msgID m i us) =
      us.map (fun u => m.set "uuid" (JVal.str u)) := by
  induction us with
  | nil => intro i; rfl
  | cons u us ih =>
    intro i
    by_cases hf : fails msgID i = true
    · simp [replicaTrace, payloads, hf, ih]
    · simp [replicaTrace, payloads, hf, ih]

theorem set_uuid_injective (m : JObj) :
    Function.Injective (fun u : String => m.set "uuid" (JVal.str u)) := by
  intro u w h
  have h1 := JObj.get_set_self m "uuid" (JVal.str u)
  have h2 := JObj.get_set_self m "uuid" (JVal.str w)
  simp only at h
  rw [h, h2] at h1
  injection h1 with h3
  injection h3 with h4
  exact h4.symm

theorem toNat_quorum (conf : InvokerConfig)
    (hlen : (conf.Uuids.length : Int) = 2 * conf.F + 1) :
    (2 * conf.F + 1).toNat = conf.Uuids.length := by
  omega

theorem handleMessage_eq (unmarshal : String → Option JObj) (fails : Int → Nat → Bool)
    (servClient : ServerlessClient) (conf : InvokerConfig) (msg : String) (msgID : Int)
    (sts : Stats) (m : JObj) (hlen : (conf.Uuids.length : Int) = 2 * conf.F + 1)
    (hparse : unmarshal msg = some m) :
    handleMessage unmarshal fails servClient conf msg msgID sts =
      fanOut servClient conf fails msgID conf.Uuids.length 0 m sts := by
  simp [handleMessage, hparse, toNat_quorum conf hlen]

theorem handleMessageUnderThreshold_eq (unmarshal : String → Option JObj)
    (fails : Int → Nat → Bool) (servClient : ServerlessClient) (conf : InvokerConfig)
    (msg : String) (msgID : Int) (sts : Stats) :
    handleMessageUnderThreshold unmarshal fails servClient conf msg msgID sts =
      handleMessage unmarshal fails servClient conf msg msgID sts := rfl

theorem handleMessage_trace (unmarshal : String → Option JObj) (fails : Int → Nat → Bool)
    (servClient : ServerlessClient) (conf : InvokerConfig) (msg : String) (msgID : Int)
    (sts : Stats) (m : JObj) (hlen : (conf.Uuids.length : Int) = 2 * conf.F + 1)
    (hparse : unmarshal msg = some m) :
    (handleMessage unmarshal fails servClient conf msg msgID sts).trace =
      replicaTrace servClient conf fails msgID m 0 conf.Uuids := by
  rw [handleMessage_eq unmarshal fails servClient conf msg msgID sts m hlen hparse,
    fanOut_trace servClient conf fails msgID _ 0 m sts (by omega)]
  simp

theorem handleMessage_abort (unmarshal : String → Option JObj) (fails : Int → Nat → Bool)
    (servClient : ServerlessClient) (conf : InvokerConfig) (msg : String) (msgID : Int)
    (sts : Stats) (m : JObj) (hlen : (conf.Uuids.length : Int) = 2 * conf.F + 1)
    (hparse : unmarshal msg = some m) :
    (handleMessage unmarshal fails servClient conf msg msgID sts).abort = none := by
  rw [handleMessage_eq unmarshal fails servClient conf msg msgID sts m hlen hparse]
  exact fanOut_abort servClient conf fails msgID _ 0 m sts (by omega)

theorem handleMessage_payloads_eq (unmarshal : String → Option JObj)
    (fails : Int → Nat → Bool) (servClient : ServerlessClient) (conf : InvokerConfig)
    (msg : String) (msgID : Int) (sts : Stats) (m : JObj)
    (hlen : (conf.Uuids.length : Int) = 2 * conf.F + 1) (hparse : unmarshal msg = some m) :
    payloads (handleMessage unmarshal fails servClient conf msg msgID sts).trace =
      conf.Uuids.map (fun u => m.set "uuid" (JVal.str u)) := by
  rw [handleMessage_trace unmarshal fails servClient conf msg msgID sts m hlen hparse,
    payloads_replicaTrace]

/-! ## The fan-out of one message -/

/-- C1: for `F ≥ 0`, a list `Uuids` of `2F+1` pairwise distinct identifiers and
a message that decodes to the object `m`, `handleMessage` runs without an index
out of range and builds exactly `2F+1` payloads; the `i`-th is `m` with `"uuid"`
set to `Uuids[i]`, and the payloads are pairwise distinct. -/
theorem handleMessage_payloads (unmarshal : String → Option JObj)
    (fails : Int → Nat → Bool) (servClient : ServerlessClient) (conf : InvokerConfig)
    (msg : String) (msgID : Int) (sts : Stats) (m : JObj)
    (hF : 0 ≤ conf.F) (hlen : (conf.Uuids.length : Int) = 2 * conf.F + 1)
    (hdistinct : conf.Uuids.Nodup) (hparse : unmarshal msg = some m) :
    (handleMessage unmarshal fails servClient conf msg msgID sts).abort = none ∧
    ((payloads (handleMessage unmarshal fails servClient conf msg msgID sts).trace).length
      : Int) = 2 * conf.F + 1 ∧
    (∀ (i : Nat) (hi : i < conf.Uuids.length),
      (payloads (handleMessage unmarshal fails servClient conf msg msgID sts).trace)[i]? =
        some (m.set "uuid" (JVal.str conf.Uuids[i]))) ∧
    (payloads (handleMessage unmarshal fails servClient conf msg msgID sts).trace).Nodup := by
  have _ := hF
  have hp := handleMessage_payloads_eq unmarshal fails servClient conf msg msgID sts m hlen hparse
  refine ⟨handleMessage_abort unmarshal fails servClient conf msg msgID sts m hlen hparse,
    ?_, ?_, ?_⟩
  · rw [hp, List.length_map, hlen]
  · intro i hi
    rw [hp, List.getElem?_map, List.getElem?_eq_getElem hi]
    rfl
  · rw [hp]
    exact hdistinct.map (set_uuid_injective m)

/-- C1, worked example: `F = 1`, `Uuids = ["a","b","c"]` and the message
`{"x":1}` give the three payloads `{"x":1,"uuid":"a"}`, `{"x":1,"uuid":"b"}`,
`{"x":1,"uuid":"c"}`. -/
theorem handleMessage_payloads_witness :
    (0 ≤ exampleConf.F ∧ (exampleConf.Uuids.length : Int) = 2 * exampleConf.F + 1 ∧
      exampleConf.Uuids.Nodup ∧ exampleUnmarshal exampleMsg = some [("x", JVal.num 1)]) ∧
    ((handleMessage exampleUnmarshal noFailure clientWest exampleConf exampleMsg 0 sts0).abort
        = none ∧
      ((payloads (handleMessage exampleUnmarshal noFailure clientWest exampleConf
        exampleMsg 0 sts0).trace).length : Int) = 2 * exampleConf.F + 1 ∧
      (∀ (i : Nat) (hi : i < exampleConf.Uuids.length),
        (payloads (handleMessage exampleUnmarshal noFailure clientWest exampleConf
          exampleMsg 0 sts0).trace)[i]? =
          some (JObj.set [("x", JVal.num 1)] "uuid" (JVal.str exampleConf.Uuids[i]))) ∧
      (payloads (handleMessage exampleUnmarshal noFailure clientWest exampleConf
        exampleMsg 0 sts0).trace).Nodup) ∧
    payloads (handleMessage exampleUnmarshal noFailure clientWest exampleConf
        exampleMsg 0 sts0).trace =
      [[("x", JVal.num 1), ("uuid", JVal.str "a")],
       [("x", JVal.num 1), ("uuid", JVal.str "b")],
       [("x", JVal.num 1), ("uuid", JVal.str "c")]] :=
  ⟨⟨by decide, by decide, by decide, rfl⟩,
    handleMessage_payloads exampleUnmarshal noFailure clientWest exampleConf exampleMsg 0 sts0
      [("x", JVal.num 1)] (by decide) (by decide) (by decide) rfl,
    rfl⟩

/-- C2: for a message that decodes to the object `m` (with or without a
`"uuid"` key) every one of the `2F+1` payloads `handleMessage` builds agrees
with `m` at each key other than `"uuid"` and binds no key outside those of `m`
and `"uuid"`; hence two payloads of the message agree at every key other than
`"uuid"`. -/
theorem handleMessage_frame (unmarshal : String → Option JObj)
    (fails : Int → Nat → Bool) (servClient : ServerlessClient) (conf : InvokerConfig)
    (msg : String) (msgID : Int) (sts : Stats) (m : JObj)
    (hlen : (conf.Uuids.length : Int) = 2 * conf.F + 1) (hparse : unmarshal msg = some m) :
    (∀ i : Nat, (i : Int) < 2 * conf.F + 1 →
      ∃ p, (payloads (handleMessage unmarshal fails servClient conf msg msgID sts).trace)[i]?
          = some p ∧
        (∀ k, k ≠ "uuid" → p.get k = m.get k) ∧
        (∀ k, p.get k ≠ none → k = "uuid" ∨ m.get k ≠ none)) ∧
    (∀ p ∈ payloads (handleMessage unmarshal fails servClient conf msg msgID sts).trace,
      ∀ q ∈ payloads (handleMessage unmarshal fails servClient conf msg msgID sts).trace,
        ∀ k, k ≠ "uuid" → p.get k = q.get k) := by
  have hp := handleMessage_payloads_eq unmarshal fails servClient conf msg msgID sts m hlen hparse
  rw [hp]
  constructor
  · intro i hi
    have hi2 : i < conf.Uuids.length := by omega
    refine ⟨m.set "uuid" (JVal.str conf.Uuids[i]), ?_, ?_, ?_⟩
    · rw [List.getElem?_map, List.getElem?_eq_getElem hi2]
      rfl
    · intro k hk
      exact JObj.get_set_ne m "uuid" k _ hk
    · intro k hk
      by_cases h : k = "uuid"
      · exact Or.inl h
      · right
        rwa [JObj.get_set_ne m "uuid" k _ h] at hk
  · intro p hpm q hqm k hk
    obtain ⟨u, _, rfl⟩ := List.mem_map.mp hpm
    obtain ⟨w, _, rfl⟩ := List.mem_map.mp hqm
    rw [JObj.get_set_ne m "uuid" k _ hk, JObj.get_set_ne m "uuid" k _ hk]

/-- C2, worked example: a message object that already has a `"uuid"` key. -/
theorem handleMessage_frame_witness :
    ((exampleConf.Uuids.length : Int) = 2 * exampleConf.F + 1 ∧
      (fun _ : String => some [("uuid", JVal.str "old"), ("x", JVal.num 1)]) exampleMsg =
        some [("uuid", JVal.str "old"), ("x", JVal.num 1)]) ∧
    ((∀ i : Nat, (i : Int) < 2 * exampleConf.F + 1 →
      ∃ p, (payloads (handleMessage
            (fun _ : String => some [("uuid", JVal.str "old"), ("x", JVal.num 1)])
            noFailure clientWest exampleConf exampleMsg 0 sts0).trace)[i]? = some p ∧
        (∀ k, k ≠ "uuid" →
          p.get k = JObj.get [("uuid", JVal.str "old"), ("x", JVal.num 1)] k) ∧
        (∀ k, p.get k ≠ none →
          k = "uuid" ∨ JObj.get [("uuid", JVal.str "old"), ("x", JVal.num 1)] k ≠ none)) ∧
    (∀ p ∈ payloads (handleMessage
          (fun _ : String => some [("uuid", JVal.str "old"), ("x", JVal.num 1)])
          noFailure clientWest exampleConf exampleMsg 0 sts0).trace,
      ∀ q ∈ payloads (handleMessage
          (fun _ : String => some [("uuid", JVal.str "old"), ("x", JVal.num 1)])
          noFailure clientWest exampleConf exampleMsg 0 sts0).trace,
        ∀ k, k ≠ "uuid" → p.get k = q.get k)) :=
  ⟨⟨by decide, rfl⟩,
    handleMessage_frame (fun _ : String => some [("uuid", JVal.str "old"), ("x", JVal.num 1)])
      noFailure clientWest exampleConf exampleMsg 0 sts0
      [("uuid", JVal.str "old"), ("x", JVal.num 1)] (by decide) rfl⟩

/-! ## The invocation counter -/

theorem handleMessage_invokeCnt (unmarshal : String → Option JObj)
    (fails : Int → Nat → Bool) (servClient : ServerlessClient) (conf : InvokerConfig)
    (msg : String) (msgID : Int) (sts : Stats) (m : JObj)
    (hlen : (conf.Uuids.length : Int) = 2 * conf.F + 1) (hparse : unmarshal msg = some m) :
    (handleMessage unmarshal fails servClient conf msg msgID sts).sts.invokeCnt =
      wrap32 (sts.invokeCnt + (2 * conf.F + 1)) := by
  rw [handleMessage_eq unmarshal fails servClient conf msg msgID sts m hlen hparse,
    fanOut_invokeCnt servClient conf fails msgID _ 0 m sts (by omega)]
  have h0 : conf.Uuids.length ≠ 0 := by omega
  simp only [h0, if_false, hlen]

theorem handleMessage_recvd (unmarshal : String → Option JObj)
    (fails : Int → Nat → Bool) (servClient : ServerlessClient) (conf : InvokerConfig)
    (msg : String) (msgID : Int) (sts : Stats) :
    (handleMessage unmarshal fails servClient conf msg msgID sts).sts.recvd = sts.recvd ∧
    (handleMessage unmarshal fails servClient conf msg msgID sts).sts.startTime =
      sts.startTime := by
  unfold handleMessage
  cases unmarshal msg with
  | none => simp
  | some m => exact fanOut_rest servClient conf fails msgID _ 0 m sts

theorem handleEach_invokeCnt (unmarshal : String → Option JObj)
    (fails : Int → Nat → Bool) (servClient : ServerlessClient) (conf : InvokerConfig)
    (hlen : (conf.Uuids.length : Int) = 2 * conf.F + 1) :
    ∀ (msgs : List String) (msgID : Int) (sts : Stats),
      (∀ msg ∈ msgs, ∃ m, unmarshal msg = some m) →
      (handleEach unmarshal fails servClient conf msgs msgID sts).invokeCnt =
        if msgs = [] then sts.invokeCnt
        else wrap32 (sts.invokeCnt + (msgs.length : Int) * (2 * conf.F + 1)) := by
  intro msgs
  induction msgs with
  | nil => intro msgID sts _; simp [handleEach]
  | cons msg rest ih =>
    intro msgID sts hparse
    obtain ⟨m, hm⟩ := hparse msg (List.mem_cons_self _ _)
    have hrest : ∀ x ∈ rest, ∃ m, unmarshal x = some m :=
      fun x hx => hparse x (List.mem_cons_of_mem _ hx)
    simp only [handleEach,
      handleMessage_abort unmarshal fails servClient conf msg msgID sts m hlen hm]
    rw [ih (msgID + 1) _ hrest,
      handleMessage_invokeCnt unmarshal fails servClient conf msg msgID sts m hlen hm]
    by_cases hr : rest = []
    · subst hr; simp
    · simp only [hr, if_false, wrap32_wrap32_add, List.length_cons, reduceCtorEq]
      congr 1
      push_cast
      ring

/-- C3 (amended): with `len(Uuids) = 2F+1`, a call of `handleMessage` or of
`handleMessageUnderThreshold` for a message that decodes leaves `invokeCnt` at
the old value plus `2F+1` wrapped to 32 bits, which is the old value plus
`2F+1` as long as that is at most `2^31 - 1`.  Starting from `invokeCnt = 0`,
after `N` such calls made one after the other `invokeCnt` is `N * (2F+1)`
wrapped to 32 bits, and so equals `N * (2F+1)` whenever `N * (2F+1) ≤ 2^31 - 1`.
This holds whichever submissions return an error. -/
theorem invokeCnt_after_messages (unmarshal : String → Option JObj)
    (fails : Int → Nat → Bool) (servClient : ServerlessClient) (conf : InvokerConfig)
    (msgs : List String)
    (hlen : (conf.Uuids.length : Int) = 2 * conf.F + 1)
    (hparse : ∀ msg ∈ msgs, ∃ m, unmarshal msg = some m) :
    (∀ (msg : String) (msgID : Int) (sts : Stats), msg ∈ msgs →
      (handleMessage unmarshal fails servClient conf msg msgID sts).sts.invokeCnt =
          wrap32 (sts.invokeCnt + (2 * conf.F + 1)) ∧
      (handleMessageUnderThreshold unmarshal fails servClient conf msg msgID sts).sts.invokeCnt =
          wrap32 (sts.invokeCnt + (2 * conf.F + 1)) ∧
      (-2147483648 ≤ sts.invokeCnt → sts.invokeCnt + (2 * conf.F + 1) ≤ 2147483647 →
        (handleMessage unmarshal fails servClient conf msg msgID sts).sts.invokeCnt =
          sts.invokeCnt + (2 * conf.F + 1))) ∧
    (handleEach unmarshal fails servClient conf msgs 0 sts0).invokeCnt =
      wrap32 ((msgs.length : Int) * (2 * conf.F + 1)) ∧
    ((msgs.length : Int) * (2 * conf.F + 1) ≤ 2147483647 →
      (handleEach unmarshal fails servClient conf msgs 0 sts0).invokeCnt =
        (msgs.length : Int) * (2 * conf.F + 1)) := by
  have hF : 0 ≤ conf.F := by omega
  have hall := handleEach_invokeCnt unmarshal fails servClient conf hlen msgs 0 sts0 hparse
  have hnn : 0 ≤ (msgs.length : Int) * (2 * conf.F + 1) :=
    mul_nonneg (Int.ofNat_nonneg _) (by omega)
  have hwrap : (handleEach unmarshal fails servClient conf msgs 0 sts0).invokeCnt =
      wrap32 ((msgs.length : Int) * (2 * conf.F + 1)) := by
    rw [hall]
    by_cases hm : msgs = []
    · subst hm; simp [sts0, wrap32]
    · simp [hm, sts0]
  refine ⟨?_, hwrap, ?_⟩
  · intro msg msgID sts hmem
    obtain ⟨m, hm⟩ := hparse msg hmem
    have h1 := handleMessage_invokeCnt unmarshal fails servClient conf msg msgID sts m hlen hm
    refine ⟨h1, ?_, ?_⟩
    · rw [handleMessageUnderThreshold_eq]; exact h1
    · intro hlo hhi
      rw [h1]
      exact wrap32_of_range _ (by omega) hhi
  · intro hb
    rw [hwrap]
    exact wrap32_of_range _ (by omega) hb

/-- C3, worked example: two messages with `F = 1` leave `invokeCnt = 6`, also
when every submission fails. -/
theorem invokeCnt_after_messages_witness :
    ((exampleConf.Uuids.length : Int) = 2 * exampleConf.F + 1 ∧
      ∀ msg ∈ [exampleMsg, exampleMsg], ∃ m, exampleUnmarshal msg = some m) ∧
    (handleEach exampleUnmarshal (fun _ _ => true) clientWest exampleConf
      [exampleMsg, exampleMsg] 0 sts0).invokeCnt = 6 :=
  ⟨⟨by decide, by
      intro msg hmsg
      simp only [List.mem_cons, List.mem_singleton, List.not_mem_nil, or_false, or_self] at hmsg
      exact ⟨[("x", JVal.num 1)], by rw [hmsg]; rfl⟩⟩,
    ((invokeCnt_after_messages exampleUnmarshal (fun _ _ => true) clientWest exampleConf
      [exampleMsg, exampleMsg] (by decide) (by
        intro msg hmsg
        simp only [List.mem_cons, List.mem_singleton, List.not_mem_nil, or_false,
          or_self] at hmsg
        exact ⟨[("x", JVal.num 1)], by rw [hmsg]; rfl⟩)).2.2 (by decide)).trans (by decide)⟩

/-- C3 fails as stated: with `F = 0`, a call made when `invokeCnt = 2^31 - 1`
leaves `invokeCnt = -2^31`, not `2^31`; and starting from `invokeCnt = 0`,
`2^31` messages leave `invokeCnt = -2^31`, not `2^31 * (2F+1)`. -/
theorem invokeCnt_wraps :
    (handleMessage exampleUnmarshal noFailure clientWest thresholdConf exampleMsg 0
        { invokeCnt := 2147483647, recvd := 0, startTime := none }).sts.invokeCnt
      = -2147483648 ∧
    ¬ (∀ msgs : List String, (∀ msg ∈ msgs, ∃ m, exampleUnmarshal msg = some m) →
      (handleEach exampleUnmarshal noFailure clientWest thresholdConf msgs 0 sts0).invokeCnt =
        (msgs.length : Int) * (2 * thresholdConf.F + 1)) := by
  refine ⟨by decide, ?_⟩
  intro hall
  have hlen : (thresholdConf.Uuids.length : Int) = 2 * thresholdConf.F + 1 := by decide
  obtain ⟨msgs, hmsgs, hN⟩ : ∃ msgs : List String,
      (∀ msg ∈ msgs, msg = exampleMsg) ∧ msgs.length = 2147483648 :=
    ⟨List.replicate 2147483648 exampleMsg, fun _ h => List.eq_of_mem_replicate h,
      List.length_replicate _ _⟩
  have hp : ∀ msg ∈ msgs, ∃ m, exampleUnmarshal msg = some m := by
    intro msg hmsg
    rw [hmsgs msg hmsg]
    exact ⟨[("x", JVal.num 1)], rfl⟩
  have h := handleEach_invokeCnt exampleUnmarshal noFailure clientWest thresholdConf hlen
    msgs 0 sts0 hp
  have hne : msgs ≠ [] := by
    intro h0
    rw [h0] at hN
    exact absurd hN (by decide)
  rw [hall msgs hp, if_neg hne, hN] at h
  revert h
  decide

/-! ## Counting events -/

@[simp]
theorem countDispatched_append (a b : List Event) :
    countDispatched (a ++ b) = countDispatched a + countDispatched b := by
  induction a with
  | nil => simp [countDispatched]
  | cons e a ih =>
    cases e <;> simp [countDispatched, ih]
    omega

@[simp]
theorem countSubmitted_append (a b : List Event) :
    countSubmitted (a ++ b) = countSubmitted a + countSubmitted b := by
  induction a with
  | nil => simp [countSubmitted]
  | cons e a ih =>
    cases e <;> simp [countSubmitted, ih]
    omega

@[simp]
theorem countStatsOut_append (a b : List Event) :
    countStatsOut (a ++ b) = countStatsOut a + countStatsOut b := by
  induction a with
  | nil => simp [countStatsOut]
  | cons e a ih =>
    cases e <;> simp [countStatsOut, ih]
    omega

@[simp]
theorem dispatchedMsgs_append (a b : List Event) :
    dispatchedMsgs (a ++ b) = dispatchedMsgs a ++ dispatchedMsgs b := by
  induction a with
  | nil => simp [dispatchedMsgs]
  | cons e a ih => cases e <;> simp [dispatchedMsgs, ih]

@[simp]
theorem dispatchedSlots_append (a b : List Event) :
    dispatchedSlots (a ++ b) = dispatchedSlots a ++ dispatchedSlots b := by
  induction a with
  | nil => simp [dispatchedSlots]
  | cons e a ih => cases e <;> simp [dispatchedSlots, ih]

theorem anchor_events (msgID : Int) (sts : Stats) (now : Nat) :
    countDispatched (anchor msgID sts now).2 = 0 ∧
    countSubmitted (anchor msgID sts now).2 = 0 ∧
    countStatsOut (anchor msgID sts now).2 = 0 ∧
    dispatchedMsgs (anchor msgID sts now).2 = [] ∧
    dispatchedSlots (anchor msgID sts now).2 = [] := by
  unfold anchor
  split <;>
    simp [countDispatched, countSubmitted, countStatsOut, dispatchedMsgs, dispatchedSlots]

theorem anchor_counters (msgID : Int) (sts : Stats) (now : Nat) :
    (anchor msgID sts now).1.invokeCnt = sts.invokeCnt ∧
    (anchor msgID sts now).1.recvd = sts.recvd := by
  unfold anchor
  split <;> simp

theorem fanOut_events (servClient : ServerlessClient) (conf : InvokerConfig)
    (fails : Int → Nat → Bool) (msgID : Int) :
    ∀ (n i : Nat) (m : JObj) (sts : Stats),
      countDispatched (fanOut servClient conf fails msgID n i m sts).trace = 0 ∧
      countStatsOut (fanOut servClient conf fails msgID n i m sts).trace = 0 ∧
      dispatchedMsgs (fanOut servClient conf fails msgID n i m sts).trace = [] ∧
      dispatchedSlots (fanOut servClient conf fails msgID n i m sts).trace = [] := by
  intro n
  induction n with
  | zero =>
    intro i m sts
    simp [fanOut, countDispatched, countStatsOut, dispatchedMsgs, dispatchedSlots]
  | succ n ih =>
    intro i m sts
    simp only [fanOut]
    cases hu : conf.Uuids[i]? with
    | none => simp [countDispatched, countStatsOut, dispatchedMsgs, dispatchedSlots]
    | some u =>
      obtain ⟨h1, h2, h3, h4⟩ := ih (i + 1) (JObj.set m "uuid" (JVal.str u))
        { sts with invokeCnt := wrap32 (sts.invokeCnt + 1) }
      by_cases hf : fails msgID i = true
      · simp [countDispatched, countStatsOut, dispatchedMsgs, dispatchedSlots, hf,
          h1, h2, h3, h4]
      · simp [countDispatched, countStatsOut, dispatchedMsgs, dispatchedSlots, hf,
          h1, h2, h3, h4]

theorem handleMessage_events (unmarshal : String → Option JObj)
    (fails : Int → Nat → Bool) (servClient : ServerlessClient) (conf : InvokerConfig)
    (msg : String) (msgID : Int) (sts : Stats) :
    countDispatched (handleMessage unmarshal fails servClient conf msg msgID sts).trace = 0 ∧
    countStatsOut (handleMessage unmarshal fails servClient conf msg msgID sts).trace = 0 ∧
    dispatchedMsgs (handleMessage unmarshal fails servClient conf msg msgID sts).trace = [] ∧
    dispatchedSlots (handleMessage unmarshal fails servClient conf msg msgID sts).trace = []
    := by
  unfold handleMessage
  cases unmarshal msg with
  | none => simp [countDispatched, countStatsOut, dispatchedMsgs, dispatchedSlots]
  | some m => exact fanOut_events servClient conf fails msgID _ 0 m sts

theorem countSubmitted_replicaTrace (servClient : ServerlessClient) (conf : InvokerConfig)
    (fails : Int → Nat → Bool) (msgID : Int) (m : JObj) (us : List String) :
    ∀ i, countSubmitted (replicaTrace servClient conf fails msgID m i us) = us.length := by
  induction us with
  | nil => intro i; rfl
  | cons u us ih =>
    intro i
    by_cases hf : fails msgID i = true
    · simp [replicaTrace, countSubmitted, hf, ih]
    · simp [replicaTrace, countSubmitted, hf, ih]

theorem statusAfter_ne_returned (a : Option Abort) : statusAfter a ≠ Status.returned := by
  cases a with
  | none => simp [statusAfter]
  | some x => cases x <;> simp [statusAfter]

/-! ## The intake loop -/

theorem intake_of_not_running (step : RunState → Arrival → RunState) (rs : RunState)
    (l : List Arrival) (h : rs.status ≠ Status.running) : intake step rs l = rs := by
  cases l with
  | nil => rfl
  | cons a l =>
    unfold intake
    split
    · next hs => exact absurd hs h
    · rfl

theorem intake_cons_running (step : RunState → Arrival → RunState) (rs : RunState)
    (a : Arrival) (l : List Arrival) (h : rs.status = Status.running) :
    intake step rs (a :: l) = intake step (step rs a) l := by
  simp [intake, h]

theorem intake_append (step : RunState → Arrival → RunState) :
    ∀ (l1 l2 : List Arrival) (rs : RunState),
      intake step rs (l1 ++ l2) = intake step (intake step rs l1) l2 := by
  intro l1
  induction l1 with
  | nil => intro l2 rs; rfl
  | cons a l1 ih =>
    intro l2 rs
    by_cases h : rs.status = Status.running
    · rw [List.cons_append, intake_cons_running step rs a _ h,
        intake_cons_running step rs a _ h, ih]
    · rw [intake_of_not_running step rs _ h, intake_of_not_running step rs _ h,
        intake_of_not_running step rs _ h]

theorem intake_invariant (step : RunState → Arrival → RunState) (P : RunState → Prop)
    (hstep : ∀ rs a, rs.status = Status.running → P rs → P (step rs a)) :
    ∀ (l : List Arrival) (rs : RunState), P rs → P (intake step rs l) := by
  intro l
  induction l with
  | nil => intro rs h; exact h
  | cons a l ih =>
    intro rs h
    by_cases hr : rs.status = Status.running
    · rw [intake_cons_running step rs a l hr]
      exact ih _ (hstep rs a hr h)
    · rw [intake_of_not_running step rs _ hr]
      exact h

theorem thresholdStep_admitted (unmarshal : String → Option JObj) (fails : Int → Nat → Bool)
    (servClients : List ServerlessClient) (conf : InvokerConfig) (rs : RunState)
    (a : Arrival) (m : JObj) (c : ServerlessClient)
    (hlen : (conf.Uuids.length : Int) = 2 * conf.F + 1)
    (hend : a.msg ≠ "END") (hparse : unmarshal a.msg = some m)
    (hc : servClients[0]? = some c) (hcnt : rs.cnt < conf.Threshold) :
    thresholdStep unmarshal fails servClients conf rs a =
      { sts := (handleMessage unmarshal fails c conf a.msg (rs.msgID + 1)
          { (anchor rs.msgID rs.sts a.now).1 with
            recvd := wrap32 ((anchor rs.msgID rs.sts a.now).1.recvd + 1) }).sts
        msgID := rs.msgID + 1
        cnt := rs.cnt + 1
        trace := rs.trace ++ (anchor rs.msgID rs.sts a.now).2 ++
          [Event.recvdInc, Event.dispatched 0 a.msg (rs.msgID + 1)] ++
          replicaTrace c conf fails (rs.msgID + 1) m 0 conf.Uuids
        status := Status.running } := by
  simp only [thresholdStep, hend, if_false, hcnt, if_true, hc, handleMessageUnderThreshold_eq]
  rw [handleMessage_trace unmarshal fails c conf a.msg _ _ m hlen hparse,
    handleMessage_abort unmarshal fails c conf a.msg _ _ m hlen hparse]
  rfl

theorem thresholdStep_stop (unmarshal : String → Option JObj) (fails : Int → Nat → Bool)
    (servClients : List ServerlessClient) (conf : InvokerConfig) (rs : RunState)
    (a : Arrival) (hend : a.msg ≠ "END") (hcnt : ¬ rs.cnt < conf.Threshold) :
    thresholdStep unmarshal fails servClients conf rs a =
      { sts := { (anchor rs.msgID rs.sts a.now).1 with
            recvd := wrap32 ((anchor rs.msgID rs.sts a.now).1.recvd + 1) }
        msgID := rs.msgID + 1
        cnt := rs.cnt
        trace := rs.trace ++ (anchor rs.msgID rs.sts a.now).2 ++
          [Event.recvdInc, Event.statsOut
            { (anchor rs.msgID rs.sts a.now).1 with
              recvd := wrap32 ((anchor rs.msgID rs.sts a.now).1.recvd + 1) }]
        status := Status.returned } := by
  simp only [thresholdStep, hend, if_false, hcnt]

theorem clientSlot_eq (k n : Nat) (hn : n ≠ 0) :
    clientSlot (k : Int) n = some (k % n) := by
  have hlt : k % n < n := Nat.mod_lt _ (Nat.pos_of_ne_zero hn)
  have h1 : Int.tmod (k : Int) (n : Int) = ((k % n : Nat) : Int) := (Int.ofNat_tmod k n).symm
  simp only [clientSlot, hn, if_false, h1, Int.toNat_ofNat]
  rw [if_pos]
  exact ⟨Int.ofNat_nonneg _, by exact_mod_cast hlt⟩

theorem unboundedStep_accept (unmarshal : String → Option JObj) (fails : Int → Nat → Bool)
    (servClients : List ServerlessClient) (conf : InvokerConfig) (rs : RunState)
    (a : Arrival) (k : Nat) (hk : rs.msgID = (k : Int)) (hne : servClients ≠ [])
    (hend : a.msg ≠ "END") :
    ∃ c, servClients[k % servClients.length]? = some c ∧
      unboundedStep unmarshal fails servClients conf rs a =
        { sts := (handleMessage unmarshal fails c conf a.msg rs.msgID
            { (anchor rs.msgID rs.sts a.now).1 with
              recvd := wrap32 ((anchor rs.msgID rs.sts a.now).1.recvd + 1) }).sts
          msgID := rs.msgID + 1
          cnt := rs.cnt
          trace := rs.trace ++ (anchor rs.msgID rs.sts a.now).2 ++
            [Event.recvdInc, Event.dispatched (k % servClients.length) a.msg rs.msgID] ++
            (handleMessage unmarshal fails c conf a.msg rs.msgID
              { (anchor rs.msgID rs.sts a.now).1 with
                recvd := wrap32 ((anchor rs.msgID rs.sts a.now).1.recvd + 1) }).trace
          status := statusAfter (handleMessage unmarshal fails c conf a.msg rs.msgID
              { (anchor rs.msgID rs.sts a.now).1 with
                recvd := wrap32 ((anchor rs.msgID rs.sts a.now).1.recvd + 1) }).abort } := by
  have hn : servClients.length ≠ 0 := by
    intro h0
    exact hne (List.length_eq_zero.mp h0)
  have hlt : k % servClients.length < servClients.length :=
    Nat.mod_lt _ (Nat.pos_of_ne_zero hn)
  refine ⟨servClients[k % servClients.length], List.getElem?_eq_getElem hlt, ?_⟩
  simp only [unboundedStep, hend, if_false, hk, clientSlot_eq k _ hn, Option.some_bind,
    List.getElem?_eq_getElem hlt, Option.map_some']

theorem replicaTrace_events (servClient : ServerlessClient) (conf : InvokerConfig)
    (fails : Int → Nat → Bool) (msgID : Int) (m : JObj) (us : List String) :
    ∀ i, countDispatched (replicaTrace servClient conf fails msgID m i us) = 0 ∧
      countStatsOut (replicaTrace servClient conf fails msgID m i us) = 0 ∧
      dispatchedMsgs (replicaTrace servClient conf fails msgID m i us) = [] ∧
      dispatchedSlots (replicaTrace servClient conf fails msgID m i us) = [] := by
  induction us with
  | nil =>
    intro i
    simp [replicaTrace, countDispatched, countStatsOut, dispatchedMsgs, dispatchedSlots]
  | cons u us ih =>
    intro i
    obtain ⟨h1, h2, h3, h4⟩ := ih (i + 1)
    by_cases hf : fails msgID i = true
    · simp [replicaTrace, countDispatched, countStatsOut, dispatchedMsgs, dispatchedSlots,
        hf, h1, h2, h3, h4]
    · simp [replicaTrace, countDispatched, countStatsOut, dispatchedMsgs, dispatchedSlots,
        hf, h1, h2, h3, h4]

theorem wellFormed_cons (unmarshal : String → Option JObj) (a : Arrival)
    (l : List Arrival) (h : wellFormed unmarshal (a :: l)) :
    (a.msg ≠ "END" ∧ ∃ m, unmarshal a.msg = some m) ∧ wellFormed unmarshal l := by
  refine ⟨⟨(h a (List.mem_cons_self _ _)).1, ?_⟩, fun x hx => h x (List.mem_cons_of_mem _ hx)⟩
  exact Option.isSome_iff_exists.mp (h a (List.mem_cons_self _ _)).2

theorem threshold_short (unmarshal : String → Option JObj) (fails : Int → Nat → Bool)
    (servClients : List ServerlessClient) (conf : InvokerConfig) (c : ServerlessClient)
    (hlen : (conf.Uuids.length : Int) = 2 * conf.F + 1) (hc : servClients[0]? = some c) :
    ∀ (arrivals : List Arrival) (rs : RunState), rs.status = Status.running →
      wellFormed unmarshal arrivals → rs.cnt + arrivals.length ≤ conf.Threshold →
      (intake (thresholdStep unmarshal fails servClients conf) rs arrivals).status
        = Status.running ∧
      (intake (thresholdStep unmarshal fails servClients conf) rs arrivals).cnt
        = rs.cnt + arrivals.length ∧
      countStatsOut (intake (thresholdStep unmarshal fails servClients conf) rs arrivals).trace
        = countStatsOut rs.trace ∧
      countDispatched (intake (thresholdStep unmarshal fails servClients conf) rs arrivals).trace
        = countDispatched rs.trace + arrivals.length ∧
      dispatchedMsgs (intake (thresholdStep unmarshal fails servClients conf) rs arrivals).trace
        = dispatchedMsgs rs.trace ++ arrivals.map (fun a => a.msg) ∧
      countSubmitted (intake (thresholdStep unmarshal fails servClients conf) rs arrivals).trace
        = countSubmitted rs.trace + arrivals.length * conf.Uuids.length := by
  intro arrivals
  induction arrivals with
  | nil => intro rs hr _ _; simp [intake, hr]
  | cons a l ih =>
    intro rs hr hwf hcnt
    obtain ⟨⟨hend, m, hm⟩, hwl⟩ := wellFormed_cons unmarshal a l hwf
    simp only [List.length_cons] at hcnt
    have hstep :=
      thresholdStep_admitted unmarshal fails servClients conf rs a m c hlen hend hm hc (by omega)
    have hs : (thresholdStep unmarshal fails servClients conf rs a).status = Status.running := by
      rw [hstep]
    have hcn : (thresholdStep unmarshal fails servClients conf rs a).cnt = rs.cnt + 1 := by
      rw [hstep]
    have htr : (thresholdStep unmarshal fails servClients conf rs a).trace =
        rs.trace ++ (anchor rs.msgID rs.sts a.now).2 ++
          [Event.recvdInc, Event.dispatched 0 a.msg (rs.msgID + 1)] ++
          replicaTrace c conf fails (rs.msgID + 1) m 0 conf.Uuids := by
      rw [hstep]
    rw [intake_cons_running _ rs a l hr]
    obtain ⟨h1, h2, h3, h4, h5, h6⟩ := ih _ hs hwl (by rw [hcn]; omega)
    obtain ⟨a1, a2, a3, a4, _⟩ := anchor_events rs.msgID rs.sts a.now
    obtain ⟨r1, r2, r3, _⟩ := replicaTrace_events c conf fails (rs.msgID + 1) m conf.Uuids 0
    have r5 := countSubmitted_replicaTrace c conf fails (rs.msgID + 1) m conf.Uuids 0
    refine ⟨h1, ?_, ?_, ?_, ?_, ?_⟩
    · rw [h2, hcn]; simp only [List.length_cons]; omega
    · rw [h3, htr]; simp [a3, r2, countStatsOut]
    · rw [h4, htr]; simp [a1, r1, countDispatched]; omega
    · rw [h5, htr]; simp [a4, r3, dispatchedMsgs]
    · rw [h6, htr]; simp [a2, r5, countSubmitted]; ring

theorem threshold_long (unmarshal : String → Option JObj) (fails : Int → Nat → Bool)
    (servClients : List ServerlessClient) (conf : InvokerConfig) (c : ServerlessClient)
    (arrivals : List Arrival)
    (hlen : (conf.Uuids.length : Int) = 2 * conf.F + 1) (hc : servClients[0]? = some c)
    (hwf : wellFormed unmarshal arrivals) (hT : conf.Threshold < arrivals.length) :
    intake (thresholdStep unmarshal fails servClients conf) initState arrivals =
      intake (thresholdStep unmarshal fails servClients conf) initState
        (arrivals.take (conf.Threshold + 1)) ∧
    (intake (thresholdStep unmarshal fails servClients conf) initState arrivals).status
      = Status.returned ∧
    countStatsOut (intake (thresholdStep unmarshal fails servClients conf) initState
      arrivals).trace = 1 ∧
    countDispatched (intake (thresholdStep unmarshal fails servClients conf) initState
      arrivals).trace = conf.Threshold ∧
    dispatchedMsgs (intake (thresholdStep unmarshal fails servClients conf) initState
      arrivals).trace = (arrivals.take conf.Threshold).map (fun a => a.msg) ∧
    countSubmitted (intake (thresholdStep unmarshal fails servClients conf) initState
      arrivals).trace = conf.Threshold * conf.Uuids.length ∧
    (intake (thresholdStep unmarshal fails servClients conf) initState arrivals).trace.getLast?
      = some (Event.statsOut
          (intake (thresholdStep unmarshal fails servClients conf) initState arrivals).sts) := by
  have hsplit : arrivals = arrivals.take conf.Threshold ++
      arrivals[conf.Threshold] :: arrivals.drop (conf.Threshold + 1) := by
    rw [List.getElem_cons_drop, List.take_append_drop]
  have hwfT : wellFormed unmarshal (arrivals.take conf.Threshold) :=
    fun x hx => hwf x (List.mem_of_mem_take hx)
  have hendT : arrivals[conf.Threshold].msg ≠ "END" :=
    (hwf _ (List.getElem_mem _)).1
  have hlenT : (arrivals.take conf.Threshold).length = conf.Threshold := by
    rw [List.length_take]; omega
  obtain ⟨s1, s2, s3, s4, s5, s6⟩ :=
    threshold_short unmarshal fails servClients conf c hlen hc
      (arrivals.take conf.Threshold) initState rfl hwfT (by rw [hlenT]; simp [initState])
  rw [hlenT] at s2 s4 s6
  have i1 : initState.cnt = 0 := rfl
  have i2 : countStatsOut initState.trace = 0 := rfl
  have i3 : countDispatched initState.trace = 0 := rfl
  have i4 : dispatchedMsgs initState.trace = [] := rfl
  have i5 : countSubmitted initState.trace = 0 := rfl
  rw [i1, Nat.zero_add] at s2
  rw [i2] at s3
  rw [i3, Nat.zero_add] at s4
  rw [i4, List.nil_append] at s5
  rw [i5, Nat.zero_add] at s6
  have hcnt : ¬ (intake (thresholdStep unmarshal fails servClients conf) initState
      (arrivals.take conf.Threshold)).cnt < conf.Threshold := by
    rw [s2]; omega
  have hstop := thresholdStep_stop unmarshal fails servClients conf _ _ hendT hcnt
  have hrun : ∀ rest : List Arrival,
      intake (thresholdStep unmarshal fails servClients conf) initState
        (arrivals.take conf.Threshold ++ arrivals[conf.Threshold] :: rest) =
      thresholdStep unmarshal fails servClients conf
        (intake (thresholdStep unmarshal fails servClients conf) initState
          (arrivals.take conf.Threshold)) arrivals[conf.Threshold] := by
    intro rest
    rw [intake_append, intake_cons_running _ _ _ _ s1, intake_of_not_running]
    rw [hstop]
    simp
  have htake : arrivals.take (conf.Threshold + 1) =
      arrivals.take conf.Threshold ++ arrivals[conf.Threshold] :: [] := by
    rw [List.take_succ, List.getElem?_eq_getElem hT]
    rfl
  have hfinal := hrun (arrivals.drop (conf.Threshold + 1))
  rw [← hsplit] at hfinal
  obtain ⟨_, _, a3, _, _⟩ := anchor_events
    (intake (thresholdStep unmarshal fails servClients conf) initState
      (arrivals.take conf.Threshold)).msgID
    (intake (thresholdStep unmarshal fails servClients conf) initState
      (arrivals.take conf.Threshold)).sts arrivals[conf.Threshold].now
  obtain ⟨b1, b2, _, b4, _⟩ := anchor_events
    (intake (thresholdStep unmarshal fails servClients conf) initState
      (arrivals.take conf.Threshold)).msgID
    (intake (thresholdStep unmarshal fails servClients conf) initState
      (arrivals.take conf.Threshold)).sts arrivals[conf.Threshold].now
  refine ⟨?_, ?_, ?_, ?_, ?_, ?_, ?_⟩
  · rw [hfinal, htake, hrun]
  · rw [hfinal, hstop]
  · rw [hfinal, hstop]
    simp [s3, a3, countStatsOut]
  · rw [hfinal, hstop]
    simp [s4, b1, countDispatched]
  · rw [hfinal, hstop]
    simp [s5, b4, dispatchedMsgs]
  · rw [hfinal, hstop]
    simp [s6, b2, countSubmitted]
  · rw [hfinal, hstop]
    simp

theorem first_client (servClients : List ServerlessClient) (hne : servClients ≠ []) :
    ∃ c, servClients[0]? = some c := by
  cases servClients with
  | nil => exact absurd rfl hne
  | cons c rest => exact ⟨c, by simp⟩

theorem runInvoker_threshold (unmarshal : String → Option JObj) (fails : Int → Nat → Bool)
    (servClients : List ServerlessClient) (conf : InvokerConfig) (arrivals : List Arrival)
    (hmode : conf.ThresholdOn = true) :
    runInvoker unmarshal fails servClients conf arrivals =
      intake (thresholdStep unmarshal fails servClients conf) initState arrivals := by
  simp [runInvoker, hmode]

theorem runInvoker_unbounded (unmarshal : String → Option JObj) (fails : Int → Nat → Bool)
    (servClients : List ServerlessClient) (conf : InvokerConfig) (arrivals : List Arrival)
    (hmode : conf.ThresholdOn = false) :
    runInvoker unmarshal fails servClients conf arrivals =
      intake (unboundedStep unmarshal fails servClients conf) initState arrivals := by
  simp [runInvoker, hmode]

/-! ## Threshold mode -/

/-- C4: in threshold mode with `Threshold = T`, for `N` received messages that
are not the sentinel and decode, `runInvoker` dispatches exactly the first
`min N T` of them, in arrival order, and issues `min N T * (2F+1)` invocations
in all; no other message is dispatched. -/
theorem threshold_dispatches_first (unmarshal : String → Option JObj)
    (fails : Int → Nat → Bool) (servClients : List ServerlessClient) (conf : InvokerConfig)
    (arrivals : List Arrival) (hmode : conf.ThresholdOn = true)
    (hlen : (conf.Uuids.length : Int) = 2 * conf.F + 1) (hne : servClients ≠ [])
    (hwf : wellFormed unmarshal arrivals) :
    dispatchedMsgs (runInvoker unmarshal fails servClients conf arrivals).trace =
      (arrivals.take conf.Threshold).map (fun a => a.msg) ∧
    countDispatched (runInvoker unmarshal fails servClients conf arrivals).trace =
      min arrivals.length conf.Threshold ∧
    (countSubmitted (runInvoker unmarshal fails servClients conf arrivals).trace : Int) =
      (min arrivals.length conf.Threshold : Nat) * (2 * conf.F + 1) := by
  obtain ⟨c, hc⟩ := first_client servClients hne
  rw [runInvoker_threshold unmarshal fails servClients conf arrivals hmode]
  by_cases hN : arrivals.length ≤ conf.Threshold
  · obtain ⟨_, _, _, s4, s5, s6⟩ :=
      threshold_short unmarshal fails servClients conf c hlen hc arrivals initState rfl hwf
        (by simpa [initState] using hN)
    have i3 : countDispatched initState.trace = 0 := rfl
    have i4 : dispatchedMsgs initState.trace = [] := rfl
    have i5 : countSubmitted initState.trace = 0 := rfl
    rw [i3, Nat.zero_add] at s4
    rw [i4, List.nil_append] at s5
    rw [i5, Nat.zero_add] at s6
    refine ⟨?_, ?_, ?_⟩
    · rw [s5, List.take_of_length_le hN]
    · rw [s4, Nat.min_eq_left hN]
    · rw [s6, Nat.min_eq_left hN]
      push_cast
      rw [hlen]
  · have hT : conf.Threshold < arrivals.length := by omega
    obtain ⟨_, _, _, s4, s5, s6, _⟩ :=
      threshold_long unmarshal fails servClients conf c arrivals hlen hc hwf hT
    refine ⟨s5, ?_, ?_⟩
    · rw [s4, Nat.min_eq_right (by omega)]
    · rw [s6, Nat.min_eq_right (by omega)]
      push_cast
      rw [hlen]

/-- C4, worked example: `Threshold = 2`, `F = 1` and five messages give two
dispatched messages and `2 * 3 = 6` invocations. -/
theorem threshold_dispatches_first_witness :
    (thresholdConf1.ThresholdOn = true ∧
      (thresholdConf1.Uuids.length : Int) = 2 * thresholdConf1.F + 1 ∧
      [clientWest] ≠ [] ∧ wellFormed exampleUnmarshal fiveArrivals) ∧
    (dispatchedMsgs (runInvoker exampleUnmarshal noFailure [clientWest] thresholdConf1
        fiveArrivals).trace =
        (fiveArrivals.take thresholdConf1.Threshold).map (fun a => a.msg) ∧
      countDispatched (runInvoker exampleUnmarshal noFailure [clientWest] thresholdConf1
        fiveArrivals).trace = min fiveArrivals.length thresholdConf1.Threshold ∧
      (countSubmitted (runInvoker exampleUnmarshal noFailure [clientWest] thresholdConf1
        fiveArrivals).trace : Int) =
        (min fiveArrivals.length thresholdConf1.Threshold : Nat) * (2 * thresholdConf1.F + 1)) ∧
    countDispatched (runInvoker exampleUnmarshal noFailure [clientWest] thresholdConf1
        fiveArrivals).trace = 2 ∧
    countSubmitted (runInvoker exampleUnmarshal noFailure [clientWest] thresholdConf1
        fiveArrivals).trace = 6 :=
  ⟨⟨rfl, by decide, by decide, by unfold wellFormed; decide⟩,
    threshold_dispatches_first exampleUnmarshal noFailure [clientWest] thresholdConf1
      fiveArrivals rfl (by decide) (by decide) (by unfold wellFormed; decide),
    by decide, by decide⟩

/-- C5 (amended): in threshold mode with `Threshold = T` and received messages
that are not the sentinel and decode, the intake loop is left when message
number `T+1` is received: that message is received but not dispatched, nothing
after it is received, `T` messages have been dispatched, the final statistics
are emitted exactly once, as the last event, and `runInvoker` returns.  As long
as at most `T` messages have been received (so also when exactly `T` arrive and
nothing else) the loop is still receiving and no statistics have been
emitted. -/
theorem threshold_intake_stops (unmarshal : String → Option JObj)
    (fails : Int → Nat → Bool) (servClients : List ServerlessClient) (conf : InvokerConfig)
    (arrivals : List Arrival) (hmode : conf.ThresholdOn = true)
    (hlen : (conf.Uuids.length : Int) = 2 * conf.F + 1) (hne : servClients ≠ [])
    (hwf : wellFormed unmarshal arrivals) :
    (arrivals.length ≤ conf.Threshold →
      (runInvoker unmarshal fails servClients conf arrivals).status = Status.running ∧
      countStatsOut (runInvoker unmarshal fails servClients conf arrivals).trace = 0) ∧
    (conf.Threshold < arrivals.length →
      (runInvoker unmarshal fails servClients conf arrivals).status = Status.returned ∧
      countStatsOut (runInvoker unmarshal fails servClients conf arrivals).trace = 1 ∧
      countDispatched (runInvoker unmarshal fails servClients conf arrivals).trace =
        conf.Threshold ∧
      (runInvoker unmarshal fails servClients conf arrivals).trace.getLast? =
        some (Event.statsOut (runInvoker unmarshal fails servClients conf arrivals).sts) ∧
      runInvoker unmarshal fails servClients conf arrivals =
        runInvoker unmarshal fails servClients conf (arrivals.take (conf.Threshold + 1))) := by
  obtain ⟨c, hc⟩ := first_client servClients hne
  rw [runInvoker_threshold unmarshal fails servClients conf arrivals hmode,
    runInvoker_threshold unmarshal fails servClients conf _ hmode]
  constructor
  · intro hN
    obtain ⟨s1, _, s3, _⟩ :=
      threshold_short unmarshal fails servClients conf c hlen hc arrivals initState rfl hwf
        (by simpa [initState] using hN)
    exact ⟨s1, s3⟩
  · intro hT
    obtain ⟨t0, t1, t2, t3, _, _, t6⟩ :=
      threshold_long unmarshal fails servClients conf c arrivals hlen hc hwf hT
    exact ⟨t1, t2, t3, t6, t0⟩

/-- C5, worked example: `Threshold = 2` and five messages. -/
theorem threshold_intake_stops_witness :
    (thresholdConf1.ThresholdOn = true ∧
      (thresholdConf1.Uuids.length : Int) = 2 * thresholdConf1.F + 1 ∧
      [clientWest] ≠ [] ∧ wellFormed exampleUnmarshal fiveArrivals) ∧
    (runInvoker exampleUnmarshal noFailure [clientWest] thresholdConf1
      fiveArrivals).status = Status.returned ∧
    countStatsOut (runInvoker exampleUnmarshal noFailure [clientWest] thresholdConf1
      fiveArrivals).trace = 1 :=
  ⟨⟨rfl, by decide, by decide, by unfold wellFormed; decide⟩,
    ((threshold_intake_stops exampleUnmarshal noFailure [clientWest] thresholdConf1
      fiveArrivals rfl (by decide) (by decide) (by unfold wellFormed; decide)).2
        (by decide)).1,
    ((threshold_intake_stops exampleUnmarshal noFailure [clientWest] thresholdConf1
      fiveArrivals rfl (by decide) (by decide) (by unfold wellFormed; decide)).2
        (by decide)).2.1⟩

/-- C5 fails as stated: with `Threshold = 2`, when exactly two messages arrive
and nothing else, both are dispatched, the loop is still receiving and no
statistics have been emitted. -/
theorem threshold_exact_keeps_receiving :
    countDispatched (runInvoker exampleUnmarshal noFailure [clientWest] thresholdConf1
      (fiveArrivals.take 2)).trace = 2 ∧
    (runInvoker exampleUnmarshal noFailure [clientWest] thresholdConf1
      (fiveArrivals.take 2)).status = Status.running ∧
    countStatsOut (runInvoker exampleUnmarshal noFailure [clientWest] thresholdConf1
      (fiveArrivals.take 2)).trace = 0 := by
  decide

/-! ## The sentinel -/

theorem thresholdStep_end (unmarshal : String → Option JObj) (fails : Int → Nat → Bool)
    (servClients : List ServerlessClient) (conf : InvokerConfig) (rs : RunState)
    (a : Arrival) (h : a.msg = "END") :
    thresholdStep unmarshal fails servClients conf rs a = shutDown rs "END" := by
  simp [thresholdStep, h]

theorem unboundedStep_end (unmarshal : String → Option JObj) (fails : Int → Nat → Bool)
    (servClients : List ServerlessClient) (conf : InvokerConfig) (rs : RunState)
    (a : Arrival) (h : a.msg = "END") :
    unboundedStep unmarshal fails servClients conf rs a = shutDown rs "END" := by
  simp [unboundedStep, h]

theorem intake_end (step : RunState → Arrival → RunState) (rs : RunState)
    (pre rest : List Arrival) (now : Nat)
    (hstep : ∀ rs0, step rs0 ⟨"END", now⟩ = shutDown rs0 "END")
    (hrun : (intake step rs pre).status = Status.running) :
    intake step rs (pre ++ ⟨"END", now⟩ :: rest) = shutDown (intake step rs pre) "END" := by
  rw [intake_append, intake_cons_running _ _ _ _ hrun, hstep, intake_of_not_running]
  simp [shutDown]

theorem runInvoker_end (unmarshal : String → Option JObj) (fails : Int → Nat → Bool)
    (servClients : List ServerlessClient) (conf : InvokerConfig)
    (pre rest : List Arrival) (now : Nat)
    (hrun : (runInvoker unmarshal fails servClients conf pre).status = Status.running) :
    runInvoker unmarshal fails servClients conf (pre ++ ⟨"END", now⟩ :: rest) =
      shutDown (runInvoker unmarshal fails servClients conf pre) "END" := by
  cases hmode : conf.ThresholdOn with
  | true =>
    rw [runInvoker_threshold _ _ _ _ _ hmode] at hrun ⊢
    rw [runInvoker_threshold _ _ _ _ _ hmode]
    exact intake_end _ _ pre rest now
      (fun rs0 => thresholdStep_end unmarshal fails servClients conf rs0 _ rfl) hrun
  | false =>
    rw [runInvoker_unbounded _ _ _ _ _ hmode] at hrun ⊢
    rw [runInvoker_unbounded _ _ _ _ _ hmode]
    exact intake_end _ _ pre rest now
      (fun rs0 => unboundedStep_end unmarshal fails servClients conf rs0 _ rfl) hrun

/-- C6: in either mode, when the next message received by the running intake
loop is the literal `"END"`, `runInvoker` takes the shutdown path at once: the
only events are the notice of `shutDown`, the emission of the statistics as
they were, and `os.Exit(0)`; no message is dispatched and no invocation is
issued for it, and `invokeCnt`, `recvd` and `startTime` keep their values.  The
same holds when `"END"` is the first message ever received. -/
theorem end_shuts_down (unmarshal : String → Option JObj) (fails : Int → Nat → Bool)
    (servClients : List ServerlessClient) (conf : InvokerConfig)
    (pre rest : List Arrival) (now : Nat)
    (hrun : (runInvoker unmarshal fails servClients conf pre).status = Status.running) :
    ((runInvoker unmarshal fails servClients conf (pre ++ ⟨"END", now⟩ :: rest)).trace =
        (runInvoker unmarshal fails servClients conf pre).trace ++
          [Event.shutDownNotice "END",
           Event.statsOut (runInvoker unmarshal fails servClients conf pre).sts,
           Event.exit 0] ∧
      (runInvoker unmarshal fails servClients conf (pre ++ ⟨"END", now⟩ :: rest)).sts =
        (runInvoker unmarshal fails servClients conf pre).sts ∧
      (runInvoker unmarshal fails servClients conf (pre ++ ⟨"END", now⟩ :: rest)).status =
        Status.exited 0 ∧
      countSubmitted
          (runInvoker unmarshal fails servClients conf (pre ++ ⟨"END", now⟩ :: rest)).trace =
        countSubmitted (runInvoker unmarshal fails servClients conf pre).trace ∧
      countDispatched
          (runInvoker unmarshal fails servClients conf (pre ++ ⟨"END", now⟩ :: rest)).trace =
        countDispatched (runInvoker unmarshal fails servClients conf pre).trace) ∧
    ((runInvoker unmarshal fails servClients conf (⟨"END", now⟩ :: rest)).trace =
        [Event.shutDownNotice "END", Event.statsOut sts0, Event.exit 0] ∧
      (runInvoker unmarshal fails servClients conf (⟨"END", now⟩ :: rest)).sts = sts0 ∧
      (runInvoker unmarshal fails servClients conf (⟨"END", now⟩ :: rest)).status =
        Status.exited 0) := by
  have h0 : (runInvoker unmarshal fails servClients conf []).status = Status.running := by
    cases hmode : conf.ThresholdOn <;> simp [runInvoker, hmode, intake, initState]
  have hnil : runInvoker unmarshal fails servClients conf [] = initState := by
    cases hmode : conf.ThresholdOn <;> simp [runInvoker, hmode, intake]
  have hfirst := runInvoker_end unmarshal fails servClients conf [] rest now h0
  rw [List.nil_append, hnil] at hfirst
  rw [runInvoker_end unmarshal fails servClients conf pre rest now hrun, hfirst]
  refine ⟨⟨rfl, rfl, rfl, ?_, ?_⟩, rfl, rfl, rfl⟩
  · simp [shutDown, countSubmitted]
  · simp [shutDown, countDispatched]

/-- C6, worked example: one request, then `"END"`, in threshold mode. -/
theorem end_shuts_down_witness :
    (runInvoker exampleUnmarshal noFailure [clientWest] thresholdConf1
      [⟨exampleMsg, 1⟩]).status = Status.running ∧
    (runInvoker exampleUnmarshal noFailure [clientWest] thresholdConf1
      ([⟨exampleMsg, 1⟩] ++ ⟨"END", 2⟩ :: [])).sts =
      (runInvoker exampleUnmarshal noFailure [clientWest] thresholdConf1
        [⟨exampleMsg, 1⟩]).sts ∧
    (runInvoker exampleUnmarshal noFailure [clientWest] thresholdConf1
      ([⟨exampleMsg, 1⟩] ++ ⟨"END", 2⟩ :: [])).status = Status.exited 0 :=
  ⟨by decide,
    (end_shuts_down exampleUnmarshal noFailure [clientWest] thresholdConf1
      [⟨exampleMsg, 1⟩] [] 2 (by decide)).1.2.1,
    (end_shuts_down exampleUnmarshal noFailure [clientWest] thresholdConf1
      [⟨exampleMsg, 1⟩] [] 2 (by decide)).1.2.2.1⟩

/-! ## Unbounded mode -/

theorem unbounded_slots_step (unmarshal : String → Option JObj) (fails : Int → Nat → Bool)
    (servClients : List ServerlessClient) (conf : InvokerConfig) (hne : servClients ≠ [])
    (rs : RunState) (a : Arrival) (hr : rs.status = Status.running)
    (h : (rs.status = Status.running → rs.msgID = (countDispatched rs.trace : Int)) ∧
      rs.status ≠ Status.returned ∧
      rs.sts.recvd = wrap32 (countDispatched rs.trace) ∧
      dispatchedSlots rs.trace =
        (List.range (countDispatched rs.trace)).map (fun k => k % servClients.length)) :
    ((unboundedStep unmarshal fails servClients conf rs a).status = Status.running →
      (unboundedStep unmarshal fails servClients conf rs a).msgID =
        (countDispatched (unboundedStep unmarshal fails servClients conf rs a).trace : Int)) ∧
    (unboundedStep unmarshal fails servClients conf rs a).status ≠ Status.returned ∧
    (unboundedStep unmarshal fails servClients conf rs a).sts.recvd =
      wrap32 (countDispatched (unboundedStep unmarshal fails servClients conf rs a).trace) ∧
    dispatchedSlots (unboundedStep unmarshal fails servClients conf rs a).trace =
      (List.range (countDispatched (unboundedStep unmarshal fails servClients conf rs a).trace)).map
        (fun k => k % servClients.length) := by
  obtain ⟨h1, _, h3, h4⟩ := h
  by_cases hend : a.msg = "END"
  · rw [unboundedStep_end unmarshal fails servClients conf rs a hend]
    refine ⟨?_, ?_, ?_, ?_⟩
    · intro hs; simp [shutDown] at hs
    · simp [shutDown]
    · simpa [shutDown, countDispatched] using h3
    · simpa [shutDown, countDispatched, dispatchedSlots] using h4
  · obtain ⟨c, _, hstep⟩ := unboundedStep_accept unmarshal fails servClients conf rs a
      (countDispatched rs.trace) (h1 hr) hne hend
    obtain ⟨a1, _, _, _, a5⟩ := anchor_events rs.msgID rs.sts a.now
    obtain ⟨e1, _, _, e4⟩ := handleMessage_events unmarshal fails c conf a.msg rs.msgID
      { (anchor rs.msgID rs.sts a.now).1 with
        recvd := wrap32 ((anchor rs.msgID rs.sts a.now).1.recvd + 1) }
    have hcd : countDispatched (unboundedStep unmarshal fails servClients conf rs a).trace =
        countDispatched rs.trace + 1 := by
      rw [hstep]; simp [a1, e1, countDispatched]
    refine ⟨?_, ?_, ?_, ?_⟩
    · intro _
      rw [hcd, hstep]
      simp only
      rw [h1 hr]
      push_cast
      rfl
    · rw [hstep]; exact statusAfter_ne_returned _
    · rw [hcd, hstep]
      simp only
      rw [(handleMessage_recvd unmarshal fails c conf a.msg rs.msgID _).1]
      simp only
      rw [(anchor_counters rs.msgID rs.sts a.now).2, h3, wrap32_wrap32_add]
      push_cast
      rfl
    · rw [hcd, List.range_succ, List.map_append, ← h4, hstep]
      simp [a5, e4, dispatchedSlots]

theorem unbounded_slots (unmarshal : String → Option JObj) (fails : Int → Nat → Bool)
    (servClients : List ServerlessClient) (conf : InvokerConfig) (hne : servClients ≠ [])
    (arrivals : List Arrival) :
    ((intake (unboundedStep unmarshal fails servClients conf) initState arrivals).status
        = Status.running →
      (intake (unboundedStep unmarshal fails servClients conf) initState arrivals).msgID =
        (countDispatched
          (intake (unboundedStep unmarshal fails servClients conf) initState arrivals).trace
          : Int)) ∧
    (intake (unboundedStep unmarshal fails servClients conf) initState arrivals).status
      ≠ Status.returned ∧
    (intake (unboundedStep unmarshal fails servClients conf) initState arrivals).sts.recvd =
      wrap32 (countDispatched
        (intake (unboundedStep unmarshal fails servClients conf) initState arrivals).trace) ∧
    dispatchedSlots
        (intake (unboundedStep unmarshal fails servClients conf) initState arrivals).trace =
      (List.range (countDispatched
        (intake (unboundedStep unmarshal fails servClients conf) initState arrivals).trace)).map
        (fun k => k % servClients.length) := by
  have h := intake_invariant (unboundedStep unmarshal fails servClients conf)
    (fun rs => (rs.status = Status.running → rs.msgID = (countDispatched rs.trace : Int)) ∧
      rs.status ≠ Status.returned ∧
      rs.sts.recvd = wrap32 (countDispatched rs.trace) ∧
      dispatchedSlots rs.trace =
        (List.range (countDispatched rs.trace)).map (fun k => k % servClients.length))
    (fun rs a hr hP => unbounded_slots_step unmarshal fails servClients conf hne rs a hr hP)
    arrivals initState
    ⟨fun _ => rfl, by simp [initState], by decide, rfl⟩
  exact h

theorem unbounded_all (unmarshal : String → Option JObj) (fails : Int → Nat → Bool)
    (servClients : List ServerlessClient) (conf : InvokerConfig) (hne : servClients ≠ [])
    (hlen : (conf.Uuids.length : Int) = 2 * conf.F + 1) :
    ∀ (arrivals : List Arrival) (rs : RunState), rs.status = Status.running →
      rs.msgID = (countDispatched rs.trace : Int) → wellFormed unmarshal arrivals →
      (intake (unboundedStep unmarshal fails servClients conf) rs arrivals).status
        = Status.running ∧
      dispatchedMsgs (intake (unboundedStep unmarshal fails servClients conf) rs arrivals).trace
        = dispatchedMsgs rs.trace ++ arrivals.map (fun a => a.msg) ∧
      countDispatched (intake (unboundedStep unmarshal fails servClients conf) rs arrivals).trace
        = countDispatched rs.trace + arrivals.length := by
  intro arrivals
  induction arrivals with
  | nil => intro rs hr _ _; simp [intake, hr]
  | cons a l ih =>
    intro rs hr hk hwf
    obtain ⟨⟨hend, m, hm⟩, hwl⟩ := wellFormed_cons unmarshal a l hwf
    obtain ⟨c, _, hstep⟩ := unboundedStep_accept unmarshal fails servClients conf rs a
      (countDispatched rs.trace) hk hne hend
    obtain ⟨a1, _, _, a4, _⟩ := anchor_events rs.msgID rs.sts a.now
    obtain ⟨e1, _, e3, _⟩ := handleMessage_events unmarshal fails c conf a.msg rs.msgID
      { (anchor rs.msgID rs.sts a.now).1 with
        recvd := wrap32 ((anchor rs.msgID rs.sts a.now).1.recvd + 1) }
    have hs : (unboundedStep unmarshal fails servClients conf rs a).status = Status.running := by
      rw [hstep]
      simp only
      rw [handleMessage_abort unmarshal fails c conf a.msg rs.msgID _ m hlen hm]
      rfl
    have hcd : countDispatched (unboundedStep unmarshal fails servClients conf rs a).trace =
        countDispatched rs.trace + 1 := by
      rw [hstep]; simp [a1, e1, countDispatched]
    have hdm : dispatchedMsgs (unboundedStep unmarshal fails servClients conf rs a).trace =
        dispatchedMsgs rs.trace ++ [a.msg] := by
      rw [hstep]; simp [a4, e3, dispatchedMsgs]
    have hid : (unboundedStep unmarshal fails servClients conf rs a).msgID =
        (countDispatched (unboundedStep unmarshal fails servClients conf rs a).trace : Int) := by
      rw [hcd, hstep]
      simp only
      rw [hk]
      push_cast
      rfl
    rw [intake_cons_running _ rs a l hr]
    obtain ⟨h1, h2, h3⟩ := ih _ hs hid hwl
    refine ⟨h1, ?_, ?_⟩
    · rw [h2, hdm]; simp
    · rw [h3, hcd]; simp only [List.length_cons]; omega

/-- C7: in unbounded mode with a non-empty client list of length `n`, the
`k`-th dispatched message (`k = 0, 1, 2, ...`) goes to the client at index
`k mod n`, and every index used is within the bounds of the client list; when
the received messages are requests that decode, every one of them is accepted
and dispatched, in arrival order. -/
theorem round_robin (unmarshal : String → Option JObj) (fails : Int → Nat → Bool)
    (servClients : List ServerlessClient) (conf : InvokerConfig) (arrivals : List Arrival)
    (hmode : conf.ThresholdOn = false) (hne : servClients ≠ []) :
    dispatchedSlots (runInvoker unmarshal fails servClients conf arrivals).trace =
      (List.range
        (countDispatched (runInvoker unmarshal fails servClients conf arrivals).trace)).map
        (fun k => k % servClients.length) ∧
    (∀ slot ∈ dispatchedSlots (runInvoker unmarshal fails servClients conf arrivals).trace,
      slot < servClients.length) ∧
    ((conf.Uuids.length : Int) = 2 * conf.F + 1 → wellFormed unmarshal arrivals →
      dispatchedMsgs (runInvoker unmarshal fails servClients conf arrivals).trace =
        arrivals.map (fun a => a.msg) ∧
      dispatchedSlots (runInvoker unmarshal fails servClients conf arrivals).trace =
        (List.range arrivals.length).map (fun k => k % servClients.length)) := by
  rw [runInvoker_unbounded unmarshal fails servClients conf arrivals hmode]
  obtain ⟨_, _, _, hslots⟩ := unbounded_slots unmarshal fails servClients conf hne arrivals
  have hn : 0 < servClients.length := List.length_pos.mpr hne
  refine ⟨hslots, ?_, ?_⟩
  · intro slot hslot
    rw [hslots] at hslot
    obtain ⟨k, _, rfl⟩ := List.mem_map.mp hslot
    exact Nat.mod_lt _ hn
  · intro hlen hwf
    obtain ⟨_, h2, h3⟩ := unbounded_all unmarshal fails servClients conf hne hlen arrivals
      initState rfl rfl hwf
    have i3 : countDispatched initState.trace = 0 := rfl
    have i4 : dispatchedMsgs initState.trace = [] := rfl
    rw [i3, Nat.zero_add] at h3
    rw [i4, List.nil_append] at h2
    exact ⟨h2, by rw [hslots, h3]⟩

/-- C7, worked example: two clients and five messages use the slots
`0, 1, 0, 1, 0`. -/
theorem round_robin_witness :
    (unboundedConf.ThresholdOn = false ∧ [clientWest, clientEast] ≠ []) ∧
    (∀ slot ∈ dispatchedSlots (runInvoker exampleUnmarshal noFailure [clientWest, clientEast]
        unboundedConf fiveArrivals).trace, slot < [clientWest, clientEast].length) ∧
    dispatchedSlots (runInvoker exampleUnmarshal noFailure [clientWest, clientEast]
        unboundedConf fiveArrivals).trace = [0, 1, 0, 1, 0] :=
  ⟨⟨rfl, by decide⟩,
    (round_robin exampleUnmarshal noFailure [clientWest, clientEast] unboundedConf
      fiveArrivals rfl (by decide)).2.1,
    by decide⟩

/-! ## The counter of received messages -/

theorem thresholdStep_dispatch (unmarshal : String → Option JObj) (fails : Int → Nat → Bool)
    (servClients : List ServerlessClient) (conf : InvokerConfig) (rs : RunState)
    (a : Arrival) (c : ServerlessClient) (hend : a.msg ≠ "END")
    (hc : servClients[0]? = some c) (hcnt : rs.cnt < conf.Threshold) :
    thresholdStep unmarshal fails servClients conf rs a =
      { sts := (handleMessage unmarshal fails c conf a.msg (rs.msgID + 1)
          { (anchor rs.msgID rs.sts a.now).1 with
            recvd := wrap32 ((anchor rs.msgID rs.sts a.now).1.recvd + 1) }).sts
        msgID := rs.msgID + 1
        cnt := rs.cnt + 1
        trace := rs.trace ++ (anchor rs.msgID rs.sts a.now).2 ++
          [Event.recvdInc, Event.dispatched 0 a.msg (rs.msgID + 1)] ++
          (handleMessage unmarshal fails c conf a.msg (rs.msgID + 1)
            { (anchor rs.msgID rs.sts a.now).1 with
              recvd := wrap32 ((anchor rs.msgID rs.sts a.now).1.recvd + 1) }).trace
        status := statusAfter (handleMessage unmarshal fails c conf a.msg (rs.msgID + 1)
            { (anchor rs.msgID rs.sts a.now).1 with
              recvd := wrap32 ((anchor rs.msgID rs.sts a.now).1.recvd + 1) }).abort } := by
  simp only [thresholdStep, hend, if_false, hcnt, if_true, hc, handleMessageUnderThreshold_eq]

theorem threshold_recvd_step (unmarshal : String → Option JObj) (fails : Int → Nat → Bool)
    (servClients : List ServerlessClient) (conf : InvokerConfig) (hne : servClients ≠ [])
    (rs : RunState) (a : Arrival) (hr : rs.status = Status.running)
    (h : rs.sts.recvd = wrap32 ((countDispatched rs.trace : Int) +
      (if rs.status = Status.returned then 1 else 0))) :
    (thresholdStep unmarshal fails servClients conf rs a).sts.recvd =
      wrap32 ((countDispatched (thresholdStep unmarshal fails servClients conf rs a).trace : Int)
        + (if (thresholdStep unmarshal fails servClients conf rs a).status = Status.returned
            then 1 else 0)) := by
  rw [hr] at h
  simp only [reduceCtorEq, if_false, add_zero] at h
  obtain ⟨c, hc⟩ := first_client servClients hne
  obtain ⟨a1, _, _, _, _⟩ := anchor_events rs.msgID rs.sts a.now
  by_cases hend : a.msg = "END"
  · rw [thresholdStep_end unmarshal fails servClients conf rs a hend]
    simpa [shutDown, countDispatched] using h
  · by_cases hcnt : rs.cnt < conf.Threshold
    · have e1 : ∀ sts, countDispatched
          (handleMessage unmarshal fails c conf a.msg (rs.msgID + 1) sts).trace = 0 :=
        fun sts => (handleMessage_events unmarshal fails c conf a.msg (rs.msgID + 1) sts).1
      rw [thresholdStep_dispatch unmarshal fails servClients conf rs a c hend hc hcnt]
      simp only [statusAfter_ne_returned, if_false, add_zero]
      rw [(handleMessage_recvd unmarshal fails c conf a.msg (rs.msgID + 1) _).1]
      simp only
      rw [(anchor_counters rs.msgID rs.sts a.now).2, h, wrap32_wrap32_add]
      simp [a1, e1, countDispatched]
    · rw [thresholdStep_stop unmarshal fails servClients conf rs a hend hcnt]
      simp only [if_true]
      rw [(anchor_counters rs.msgID rs.sts a.now).2, h, wrap32_wrap32_add]
      simp [a1, countDispatched]

theorem threshold_recvd (unmarshal : String → Option JObj) (fails : Int → Nat → Bool)
    (servClients : List ServerlessClient) (conf : InvokerConfig) (hne : servClients ≠ [])
    (arrivals : List Arrival) :
    (intake (thresholdStep unmarshal fails servClients conf) initState arrivals).sts.recvd =
      wrap32 ((countDispatched
          (intake (thresholdStep unmarshal fails servClients conf) initState arrivals).trace : Int)
        + (if (intake (thresholdStep unmarshal fails servClients conf) initState arrivals).status
            = Status.returned then 1 else 0)) :=
  intake_invariant (thresholdStep unmarshal fails servClients conf)
    (fun rs => rs.sts.recvd = wrap32 ((countDispatched rs.trace : Int) +
      (if rs.status = Status.returned then 1 else 0)))
    (fun rs a hr hP => threshold_recvd_step unmarshal fails servClients conf hne rs a hr hP)
    arrivals initState (by decide)

/-- C8 (amended): at every point of a run of `runInvoker`, in either mode,
`recvd` is the 32-bit wrap of the number of non-sentinel messages received so
far.  Each such message was handed to the dispatcher, except the one at which
threshold-mode intake stops, which is counted but not dispatched: `recvd` is
the wrap of the number of dispatched messages, plus one once the threshold loop
has been left.  For received requests that decode, `recvd` is the wrap of `N`
in unbounded mode and of `min N (T+1)` in threshold mode; with more than `T`
messages in threshold mode, `T` messages are dispatched and the final
statistics carry `recvd = T + 1` (wrapped). -/
theorem recvd_counts_received (unmarshal : String → Option JObj) (fails : Int → Nat → Bool)
    (servClients : List ServerlessClient) (conf : InvokerConfig) (arrivals : List Arrival)
    (hne : servClients ≠ []) :
    (runInvoker unmarshal fails servClients conf arrivals).sts.recvd =
      wrap32 ((countDispatched (runInvoker unmarshal fails servClients conf arrivals).trace : Int)
        + (if (runInvoker unmarshal fails servClients conf arrivals).status = Status.returned
            then 1 else 0)) ∧
    (conf.ThresholdOn = false →
      (runInvoker unmarshal fails servClients conf arrivals).sts.recvd =
        wrap32 (countDispatched (runInvoker unmarshal fails servClients conf arrivals).trace)) ∧
    ((conf.Uuids.length : Int) = 2 * conf.F + 1 → wellFormed unmarshal arrivals →
      (conf.ThresholdOn = false →
        (runInvoker unmarshal fails servClients conf arrivals).sts.recvd =
          wrap32 arrivals.length) ∧
      (conf.ThresholdOn = true →
        (runInvoker unmarshal fails servClients conf arrivals).sts.recvd =
          wrap32 (min arrivals.length (conf.Threshold + 1) : Nat)) ∧
      (conf.ThresholdOn = true → conf.Threshold < arrivals.length →
        countDispatched (runInvoker unmarshal fails servClients conf arrivals).trace =
          conf.Threshold ∧
        (runInvoker unmarshal fails servClients conf arrivals).trace.getLast? =
          some (Event.statsOut (runInvoker unmarshal fails servClients conf arrivals).sts) ∧
        (runInvoker unmarshal fails servClients conf arrivals).sts.recvd =
          wrap32 ((conf.Threshold : Int) + 1))) := by
  obtain ⟨c, hc⟩ := first_client servClients hne
  cases hmode : conf.ThresholdOn with
  | false =>
    rw [runInvoker_unbounded unmarshal fails servClients conf arrivals hmode]
    obtain ⟨_, u1, u2, _⟩ := unbounded_slots unmarshal fails servClients conf hne arrivals
    refine ⟨?_, fun _ => u2, ?_⟩
    · rw [u2]; simp only [u1, if_false, add_zero]
    · intro hlen hwf
      refine ⟨fun _ => ?_, fun h => absurd h (by simp), fun h => absurd h (by simp)⟩
      obtain ⟨_, _, h3⟩ := unbounded_all unmarshal fails servClients conf hne hlen arrivals
        initState rfl rfl hwf
      have i3 : countDispatched initState.trace = 0 := rfl
      rw [i3, Nat.zero_add] at h3
      rw [u2, h3]
  | true =>
    rw [runInvoker_threshold unmarshal fails servClients conf arrivals hmode]
    have hinv := threshold_recvd unmarshal fails servClients conf hne arrivals
    refine ⟨hinv, fun h => absurd h (by simp), ?_⟩
    intro hlen hwf
    have hlong : conf.Threshold < arrivals.length →
        countDispatched
            (intake (thresholdStep unmarshal fails servClients conf) initState arrivals).trace =
          conf.Threshold ∧
        (intake (thresholdStep unmarshal fails servClients conf) initState arrivals).trace.getLast?
          = some (Event.statsOut
            (intake (thresholdStep unmarshal fails servClients conf) initState arrivals).sts) ∧
        (intake (thresholdStep unmarshal fails servClients conf) initState arrivals).sts.recvd =
          wrap32 ((conf.Threshold : Int) + 1) := by
      intro hT
      obtain ⟨_, t1, _, t3, _, _, t6⟩ :=
        threshold_long unmarshal fails servClients conf c arrivals hlen hc hwf hT
      refine ⟨t3, t6, ?_⟩
      rw [hinv, t1, t3]
      simp
    refine ⟨fun h => absurd h (by simp), fun _ => ?_, fun _ hT => hlong hT⟩
    by_cases hN : arrivals.length ≤ conf.Threshold
    · obtain ⟨s1, _, _, s4, _, _⟩ :=
        threshold_short unmarshal fails servClients conf c hlen hc arrivals initState rfl hwf
          (by simpa [initState] using hN)
      have i3 : countDispatched initState.trace = 0 := rfl
      rw [i3, Nat.zero_add] at s4
      rw [hinv, s1, s4, Nat.min_eq_left (by omega)]
      simp
    · rw [(hlong (by omega)).2.2, Nat.min_eq_right (by omega)]
      push_cast
      rfl

/-- C8, worked example: two clients, unbounded mode, five messages. -/
theorem recvd_counts_received_witness :
    [clientWest, clientEast] ≠ [] ∧
    (runInvoker exampleUnmarshal noFailure [clientWest, clientEast] unboundedConf
      fiveArrivals).sts.recvd = 5 :=
  ⟨by decide,
    ((recvd_counts_received exampleUnmarshal noFailure [clientWest, clientEast] unboundedConf
      fiveArrivals (by decide)).2.1 rfl).trans (by decide)⟩

/-- C8 fails as stated: with `Threshold = 2` and five inbound messages, two
messages are handed to the dispatcher, and `recvd` is `3`, not `2`, in the
final statistics. -/
theorem recvd_counts_stopping_message :
    countDispatched (runInvoker exampleUnmarshal noFailure [clientWest] thresholdConf1
      fiveArrivals).trace = 2 ∧
    (runInvoker exampleUnmarshal noFailure [clientWest] thresholdConf1
      fiveArrivals).trace.getLast? =
      some (Event.statsOut { invokeCnt := 6, recvd := 3, startTime := some 1 }) ∧
    (runInvoker exampleUnmarshal noFailure [clientWest] thresholdConf1
      fiveArrivals).status = Status.returned :=
  ⟨by decide, rfl, by decide⟩

/-! ## Throughput -/

/-- C9 (amended): `outputStats` computes the throughput as the `float64`
quotient of `invokeCnt` by the seconds elapsed since `startTime`, and the
computation always yields a value.  When `invokeCnt = 0` the throughput is `0`
provided the elapsed time is not `0`, so in particular when no message was ever
accepted (`startTime` never set: the elapsed time is then the largest
duration); when `invokeCnt = 0` and the elapsed time is `0` the quotient is
`0/0`, which is NaN. -/
theorem throughput_of_zero_count (s : Stats) (now : Nat) (h0 : s.invokeCnt = 0) :
    (outputStats s now).thpt =
      fdiv (s.invokeCnt : ℚ) ((since s.startTime now : ℚ) / 1000000000) ∧
    (since s.startTime now ≠ 0 → (outputStats s now).thpt = F64.finite 0) ∧
    (s.startTime = none → (outputStats s now).thpt = F64.finite 0) ∧
    (since s.startTime now = 0 → (outputStats s now).thpt = F64.nan) := by
  refine ⟨rfl, ?_, ?_, ?_⟩
  · intro h
    have h1 : (since s.startTime now : ℚ) ≠ 0 := by exact_mod_cast h
    simp [outputStats, fdiv, h0, h1]
  · intro h
    simp [outputStats, fdiv, h0, h, since, maxDuration]
  · intro h
    simp [outputStats, fdiv, h0, h]

/-- C9, worked example: no message was ever accepted. -/
theorem throughput_of_zero_count_witness :
    sts0.invokeCnt = 0 ∧ (outputStats sts0 5).thpt = F64.finite 0 :=
  ⟨rfl, (throughput_of_zero_count sts0 5 rfl).2.2.1 rfl⟩

/-- C9 fails as stated: with `invokeCnt = 0` and no time elapsed since
`startTime`, the throughput computed is NaN, not `0`. -/
theorem throughput_nan :
    (outputStats { invokeCnt := 0, recvd := 1, startTime := some 5 } 5).thpt = F64.nan ∧
    (outputStats { invokeCnt := 0, recvd := 1, startTime := some 5 } 5).thpt ≠ F64.finite 0 := by
  have h : (outputStats { invokeCnt := 0, recvd := 1, startTime := some 5 } 5).thpt
      = F64.nan := by
    simp [outputStats, fdiv, since, maxDuration]
  rw [h]
  exact ⟨rfl, by simp⟩

/-! ## Order of the events of one message -/

theorem seenBefore_replicaTrace_inc (servClient : ServerlessClient) (conf : InvokerConfig)
    (fails : Int → Nat → Bool) (msgID : Int) (m : JObj) (us : List String) :
    ∀ i seen, seenBefore isInvokeCntInc seen (replicaTrace servClient conf fails msgID m i us) =
      List.range' (seen + 1) us.length := by
  induction us with
  | nil => intro i seen; rfl
  | cons u us ih =>
    intro i seen
    by_cases hf : fails msgID i = true
    · simp [replicaTrace, seenBefore, isInvokeCntInc, hf, ih, List.range'_succ]
    · simp [replicaTrace, seenBefore, isInvokeCntInc, hf, ih, List.range'_succ]

theorem seenBefore_replicaTrace_other (p : Event → Bool)
    (hp1 : p Event.invokeCntInc = false) (hp2 : ∀ n, p (Event.submitFailed n) = false)
    (servClient : ServerlessClient) (conf : InvokerConfig)
    (fails : Int → Nat → Bool) (msgID : Int) (m : JObj) (us : List String) :
    ∀ i seen, seenBefore p seen (replicaTrace servClient conf fails msgID m i us) =
      List.replicate us.length seen := by
  induction us with
  | nil => intro i seen; rfl
  | cons u us ih =>
    intro i seen
    by_cases hf : fails msgID i = true
    · simp [replicaTrace, seenBefore, hp1, hp2, hf, ih, List.replicate_succ]
    · simp [replicaTrace, seenBefore, hp1, hp2, hf, ih, List.replicate_succ]

theorem seenBefore_segment (servClient : ServerlessClient) (conf : InvokerConfig)
    (fails : Int → Nat → Bool) (id msgID : Int) (m : JObj) (sts : Stats) (now slot : Nat)
    (msg : String) :
    seenBefore isRecvdInc 0 ((anchor msgID sts now).2 ++
        [Event.recvdInc, Event.dispatched slot msg id] ++
        replicaTrace servClient conf fails id m 0 conf.Uuids) =
      List.replicate conf.Uuids.length 1 ∧
    seenBefore isInvokeCntInc 0 ((anchor msgID sts now).2 ++
        [Event.recvdInc, Event.dispatched slot msg id] ++
        replicaTrace servClient conf fails id m 0 conf.Uuids) =
      List.range' 1 conf.Uuids.length ∧
    (msgID = 0 →
      seenBefore isStartTimeSet 0 ((anchor msgID sts now).2 ++
          [Event.recvdInc, Event.dispatched slot msg id] ++
          replicaTrace servClient conf fails id m 0 conf.Uuids) =
        List.replicate conf.Uuids.length 1) := by
  have hR := seenBefore_replicaTrace_other isRecvdInc rfl (fun _ => rfl) servClient conf fails
    id m conf.Uuids 0
  have hS := seenBefore_replicaTrace_other isStartTimeSet rfl (fun _ => rfl) servClient conf
    fails id m conf.Uuids 0
  have hI := seenBefore_replicaTrace_inc servClient conf fails id m conf.Uuids 0
  refine ⟨?_, ?_, ?_⟩
  · unfold anchor
    split <;> simp [seenBefore, isRecvdInc, hR]
  · unfold anchor
    split <;> simp [seenBefore, isInvokeCntInc, hI]
  · intro h0
    simp [anchor, h0, seenBefore, isStartTimeSet, hS]

/-- C10 (amended): for every accepted message, in either mode, the events of
the message are, in this order: the setting of `startTime` (for the first
message), the `recvd` increment, the start of the handler, and then for each
replica in turn one `invokeCnt` increment followed by that replica's
submission.  So the setting of `startTime` and the `recvd` increment come
before every submission of the message, and before the `i`-th submission
(`i = 1, ..., 2F+1`) exactly `i` of the message's `invokeCnt` increments have
occurred. -/
theorem message_event_order (unmarshal : String → Option JObj) (fails : Int → Nat → Bool)
    (servClients : List ServerlessClient) (conf : InvokerConfig) (pre : List Arrival)
    (a : Arrival) (m : JObj)
    (hlen : (conf.Uuids.length : Int) = 2 * conf.F + 1) (hne : servClients ≠ [])
    (hrun : (runInvoker unmarshal fails servClients conf pre).status = Status.running)
    (hend : a.msg ≠ "END") (hparse : unmarshal a.msg = some m)
    (hcnt : conf.ThresholdOn = true →
      (runInvoker unmarshal fails servClients conf pre).cnt < conf.Threshold) :
    ∃ (c : ServerlessClient) (slot : Nat) (id : Int) (seg : List Event),
      (runInvoker unmarshal fails servClients conf (pre ++ [a])).trace =
        (runInvoker unmarshal fails servClients conf pre).trace ++ seg ∧
      seg = (anchor (runInvoker unmarshal fails servClients conf pre).msgID
            (runInvoker unmarshal fails servClients conf pre).sts a.now).2 ++
          [Event.recvdInc, Event.dispatched slot a.msg id] ++
          replicaTrace c conf fails id m 0 conf.Uuids ∧
      seenBefore isRecvdInc 0 seg = List.replicate (2 * conf.F + 1).toNat 1 ∧
      seenBefore isInvokeCntInc 0 seg = List.range' 1 (2 * conf.F + 1).toNat ∧
      ((runInvoker unmarshal fails servClients conf pre).msgID = 0 →
        seenBefore isStartTimeSet 0 seg = List.replicate (2 * conf.F + 1).toNat 1) := by
  rw [toNat_quorum conf hlen]
  cases hmode : conf.ThresholdOn with
  | true =>
    obtain ⟨c, hc⟩ := first_client servClients hne
    have hcnt2 := hcnt hmode
    rw [runInvoker_threshold _ _ _ _ _ hmode] at hrun hcnt2 ⊢
    rw [runInvoker_threshold _ _ _ _ _ hmode]
    refine ⟨c, 0, (intake (thresholdStep unmarshal fails servClients conf) initState pre).msgID
      + 1, _, ?_, rfl, seenBefore_segment c conf fails _ _ m _ _ 0 a.msg⟩
    rw [intake_append, intake_cons_running _ _ _ _ hrun]
    simp only [intake]
    rw [thresholdStep_admitted unmarshal fails servClients conf _ a m c hlen hend hparse hc hcnt2]
    simp
  | false =>
    rw [runInvoker_unbounded _ _ _ _ _ hmode] at hrun ⊢
    rw [runInvoker_unbounded _ _ _ _ _ hmode]
    obtain ⟨hid, _, _, _⟩ := unbounded_slots unmarshal fails servClients conf hne pre
    obtain ⟨c, _, hstep⟩ := unboundedStep_accept unmarshal fails servClients conf
      (intake (unboundedStep unmarshal fails servClients conf) initState pre) a
      _ (hid hrun) hne hend
    refine ⟨c,
      countDispatched (intake (unboundedStep unmarshal fails servClients conf) initState
        pre).trace % servClients.length,
      (intake (unboundedStep unmarshal fails servClients conf) initState pre).msgID,
      _, ?_, rfl, seenBefore_segment c conf fails _ _ m _ _ _ a.msg⟩
    rw [intake_append, intake_cons_running _ _ _ _ hrun]
    simp only [intake]
    rw [hstep]
    simp only
    rw [handleMessage_trace unmarshal fails c conf a.msg _ _ m hlen hparse]
    simp

/-- C10, worked example: the first message of a run, with `F = 1`. -/
theorem message_event_order_witness :
    ((exampleConf.Uuids.length : Int) = 2 * exampleConf.F + 1 ∧ [clientWest] ≠ [] ∧
      (runInvoker exampleUnmarshal noFailure [clientWest] exampleConf []).status
        = Status.running ∧
      exampleMsg ≠ "END" ∧ exampleUnmarshal exampleMsg = some [("x", JVal.num 1)]) ∧
    ∃ (c : ServerlessClient) (slot : Nat) (id : Int) (seg : List Event),
      (runInvoker exampleUnmarshal noFailure [clientWest] exampleConf
          ([] ++ [⟨exampleMsg, 1⟩])).trace =
        (runInvoker exampleUnmarshal noFailure [clientWest] exampleConf []).trace ++ seg ∧
      seg = (anchor (runInvoker exampleUnmarshal noFailure [clientWest] exampleConf []).msgID
            (runInvoker exampleUnmarshal noFailure [clientWest] exampleConf []).sts 1).2 ++
          [Event.recvdInc, Event.dispatched slot exampleMsg id] ++
          replicaTrace c exampleConf noFailure id [("x", JVal.num 1)] 0 exampleConf.Uuids ∧
      seenBefore isRecvdInc 0 seg = List.replicate (2 * exampleConf.F + 1).toNat 1 ∧
      seenBefore isInvokeCntInc 0 seg = List.range' 1 (2 * exampleConf.F + 1).toNat ∧
      ((runInvoker exampleUnmarshal noFailure [clientWest] exampleConf []).msgID = 0 →
        seenBefore isStartTimeSet 0 seg = List.replicate (2 * exampleConf.F + 1).toNat 1) :=
  ⟨⟨by decide, by decide, by decide, by decide, rfl⟩,
    message_event_order exampleUnmarshal noFailure [clientWest] exampleConf []
      ⟨exampleMsg, 1⟩ [("x", JVal.num 1)] (by decide) (by decide) (by decide) (by decide) rfl
      (fun h => absurd h (by decide))⟩

/-- C10 fails as stated: with `F = 1`, when the first of the three submissions
of a message is issued only one of the message's three `invokeCnt` increments
has occurred; the second and third come after it. -/
theorem increments_interleave_submissions :
    seenBefore isInvokeCntInc 0 (runInvoker exampleUnmarshal noFailure [clientWest]
      exampleConf [⟨exampleMsg, 1⟩]).trace = [1, 2, 3] ∧
    seenBefore isInvokeCntInc 0 (runInvoker exampleUnmarshal noFailure [clientWest]
      thresholdConf1 [⟨exampleMsg, 1⟩]).trace = [1, 2, 3] ∧
    countIncs ((runInvoker exampleUnmarshal noFailure [clientWest]
      exampleConf [⟨exampleMsg, 1⟩]).trace.take 5) = 1 ∧
    countSubmitted ((runInvoker exampleUnmarshal noFailure [clientWest]
      exampleConf [⟨exampleMsg, 1⟩]).trace.take 5) = 1 := by
  decide

/-! ## The increment statement between goroutines -/

/-- Run without another goroutine in between, the increment statement adds one
to the counter (with 32-bit wrap), as `fanOut` has it. -/
theorem increment_alone (s : Shared) (g : Nat) :
    (runOps s [IncOp.add g, IncOp.store g]).invokeCnt = wrap32 (s.invokeCnt + 1) := by
  simp [runOps, incOp]

/-- When the increment statements of two handlers overlap, one increment can be
lost: both additions happen, and the store of the older result comes last. -/
theorem increment_overlapping :
    (runOps { invokeCnt := 0, kept := fun _ => 0 }
      [IncOp.add 0, IncOp.store 0, IncOp.add 1, IncOp.store 1]).invokeCnt = 2 ∧
    (runOps { invokeCnt := 0, kept := fun _ => 0 }
      [IncOp.add 0, IncOp.add 1, IncOp.store 1, IncOp.store 0]).invokeCnt = 1 := by
  decide

end Invoker
